import Mathlib

/-!
# `compute publish`: the build-then-deploy command

A shallow embedding of `PublishCommand.Exec` (pkg/compute/publish.go) and the
properties of its override merge, its call order and its error propagation.

The two nested commands (`BuildCommand.Exec`, `DeployCommand.Exec`), the error
log (`Globals.ErrLog.Add`) and `text.Break` are not part of the embedded file.
They are taken as parameters (`Collab`): arbitrary total functions over the
receiver they are called on and over an abstract world `W` (the reader, the
writer, the globals, the file system, the remote service).  A nested command
holds no reference to the publish command or to the other nested command, so
its step function receives, and may change, only its own receiver and the world.

The flags that `NewPublishCommand` registers are compared with the help texts
that pkg/app/run_test.go expects for `compute build`, `compute deploy` and
`compute publish`.  The version resolver and the packager are in neither
embedded file; they are modelled from the specification's wording.

The test helper `stripTrailingSpace` (pkg/app/run_test.go) is embedded over
byte strings, together with the behaviour of the Go library functions it calls.
-/

namespace Publish

/-- Modelled from the spec: `cmd.OptionalString`, `cmd.OptionalBool`,
`cmd.OptionalInt` and `cmd.OptionalUint` are declared outside the embedded
file. The spec's OptionalField is a value with a was-explicitly-set flag; the
source reads the two as `.Value` and `.WasSet`. -/
structure Optional (α : Type) where
  Value : α
  WasSet : Bool
deriving DecidableEq, Repr

abbrev OptionalString := Optional String
abbrev OptionalBool := Optional Bool
abbrev OptionalInt := Optional Int
abbrev OptionalUint := Optional Nat

/-- Modelled from the spec: `cmd.OptionalServiceVersion` is declared outside
the embedded file; a version selector is 'latest', 'active' or a number, so the
value is the string given to `--version`. -/
abbrev OptionalServiceVersion := Optional String

/-- Modelled from the spec: the declaration of `BuildCommand` is outside the
embedded file. The Builder configuration is given the five fields that `Exec`
assigns, each with the type of the flag variable it is assigned from
(`StringVar`, `BoolVar`, `IntVar`). -/
structure BuildCommand where
  PackageName : String
  Lang : String
  IncludeSrc : Bool
  Force : Bool
  Timeout : Int
deriving DecidableEq, Repr

/-- Modelled from the spec: the declaration of `DeployCommand` is outside the
embedded file. The Deployer configuration is given the seven fields that `Exec`
assigns, each with the type of what it is assigned from; `M` stands for
`manifest.Data`, of which `Exec` only makes a copy. -/
structure DeployCommand (M : Type) where
  Path : String
  ServiceVersion : OptionalServiceVersion
  Domain : String
  Backend : String
  BackendPort : Nat
  Comment : OptionalString
  Manifest : M
deriving DecidableEq, Repr

/-- The publish command's own fields: its manifest and the eleven overrides. -/
structure PublishCommand (M : Type) where
  manifest : M
  -- Deploy fields
  path : OptionalString
  domain : OptionalString
  backend : OptionalString
  backendPort : OptionalUint
  serviceVersion : OptionalServiceVersion
  comment : OptionalString
  -- Build fields
  name : OptionalString
  lang : OptionalString
  includeSrc : OptionalBool
  force : OptionalBool
  timeout : OptionalInt
deriving DecidableEq, Repr

/-- Everything `Exec` can reach: the receiver `c`, the two nested commands it
points to, and the world. -/
structure PublishState (M W : Type) where
  c : PublishCommand M
  build : BuildCommand
  deploy : DeployCommand M
  world : W
deriving DecidableEq, Repr

/-- The functions `Exec` calls that live outside the embedded file. A step
returns its error (`none` is Go `nil`), its receiver and the world, both as it
left them. -/
structure Collab (M E W : Type) where
  buildExec : BuildCommand → W → Option E × BuildCommand × W
  deployExec : DeployCommand M → W → Option E × DeployCommand M × W
  errLogAdd : E → W → W
  textBreak : W → W

/-- One call made by `Exec`, with what the callee can see at that moment; the
two step calls also carry the other nested command's fields at that moment. -/
inductive Call (M E W : Type) where
  | buildExec (build : BuildCommand) (deploy : DeployCommand M) (world : W)
  | errLogAdd (err : E) (world : W)
  | textBreak (world : W)
  | deployExec (build : BuildCommand) (deploy : DeployCommand M) (world : W)
deriving DecidableEq, Repr

/-- What a run of `Exec` leaves behind: the returned error, the state, and the
calls it made, in program order. -/
structure Outcome (M E W : Type) where
  err : Option E
  final : PublishState M W
  calls : List (Call M E W)
deriving DecidableEq, Repr

/-- Lines 76-91: "Reset the fields on the BuildCommand based on PublishCommand
values." -/
def resetBuild {M : Type} (c : PublishCommand M) (b : BuildCommand) : BuildCommand :=
  let b := if c.name.WasSet then { b with PackageName := c.name.Value } else b
  let b := if c.lang.WasSet then { b with Lang := c.lang.Value } else b
  let b := if c.includeSrc.WasSet then { b with IncludeSrc := c.includeSrc.Value } else b
  let b := if c.force.WasSet then { b with Force := c.force.Value } else b
  let b := if c.timeout.WasSet then { b with Timeout := c.timeout.Value } else b
  b

/-- Lines 101-120: "Reset the fields on the DeployCommand based on
PublishCommand values", then the unconditional copy of the manifest. -/
def resetDeploy {M : Type} (c : PublishCommand M) (d : DeployCommand M) : DeployCommand M :=
  let d := if c.path.WasSet then { d with Path := c.path.Value } else d
  let d := if c.serviceVersion.WasSet then { d with ServiceVersion := c.serviceVersion } else d
  let d := if c.domain.WasSet then { d with Domain := c.domain.Value } else d
  let d := if c.backend.WasSet then { d with Backend := c.backend.Value } else d
  let d := if c.backendPort.WasSet then { d with BackendPort := c.backendPort.Value } else d
  let d := if c.comment.WasSet then { d with Comment := c.comment } else d
  { d with Manifest := c.manifest }

/-- The method `PublishCommand.Exec` (lines 75-129). -/
def Exec {M E W : Type} (k : Collab M E W) (s : PublishState M W) : Outcome M E W :=
  let b0 := resetBuild s.c s.build
  -- err = c.build.Exec(in, out)
  let call1 : Call M E W := Call.buildExec b0 s.deploy s.world
  match k.buildExec b0 s.world with
  | (some err, b1, w1) =>
    -- c.Globals.ErrLog.Add(err); return err
    { err := some err
      final := { s with build := b1, world := k.errLogAdd err w1 }
      calls := [call1, Call.errLogAdd err w1] }
  | (none, b1, w1) =>
    -- text.Break(out)
    let w2 := k.textBreak w1
    let d0 := resetDeploy s.c s.deploy
    -- err = c.deploy.Exec(in, out)
    let call3 : Call M E W := Call.deployExec b1 d0 w2
    match k.deployExec d0 w2 with
    | (some err, d1, w3) =>
      -- c.Globals.ErrLog.Add(err); return err
      { err := some err
        final := { s with build := b1, deploy := d1, world := k.errLogAdd err w3 }
        calls := [call1, Call.textBreak w1, call3, Call.errLogAdd err w3] }
    | (none, d1, w3) =>
      -- return nil
      { err := none
        final := { s with build := b1, deploy := d1, world := w3 }
        calls := [call1, Call.textBreak w1, call3] }

/-- Whether a call is the build step. -/
def Call.isBuildExec {M E W : Type} : Call M E W → Bool
  | Call.buildExec _ _ _ => true
  | _ => false

/-- Whether a call is the deploy step. -/
def Call.isDeployExec {M E W : Type} : Call M E W → Bool
  | Call.deployExec _ _ _ => true
  | _ => false

/-- How many times the build step was invoked in a run. -/
def buildCount {M E W : Type} (o : Outcome M E W) : Nat :=
  o.calls.countP Call.isBuildExec

/-- How many times the deploy step was invoked in a run. -/
def deployCount {M E W : Type} (o : Outcome M E W) : Nat :=
  o.calls.countP Call.isDeployExec

/-- The error the build step returns in the run from `s`. -/
def buildErr {M E W : Type} (k : Collab M E W) (s : PublishState M W) : Option E :=
  (k.buildExec (resetBuild s.c s.build) s.world).1

/-- The receiver as the build step leaves it in the run from `s`. -/
def buildAfter {M E W : Type} (k : Collab M E W) (s : PublishState M W) : BuildCommand :=
  (k.buildExec (resetBuild s.c s.build) s.world).2.1

/-- The world as the build step leaves it in the run from `s`. -/
def worldAfterBuild {M E W : Type} (k : Collab M E W) (s : PublishState M W) : W :=
  (k.buildExec (resetBuild s.c s.build) s.world).2.2

/-- The error the deploy step returns in the run from `s`, were it invoked
after a successful build. -/
def deployErr {M E W : Type} (k : Collab M E W) (s : PublishState M W) : Option E :=
  (k.deployExec (resetDeploy s.c s.deploy) (k.textBreak (worldAfterBuild k s))).1

/-! ### Sample runs -/

/-- Errors the sample steps return. -/
inductive SampleErr where
  | toolchainFailed
  | versionNotEditable
  | remoteUnavailable
deriving DecidableEq, Repr

/-- A sample world: the notes the collaborators have written so far. -/
abbrev SampleWorld := List String

/-- Shared by the sample collaborators: `ErrLog.Add` and `text.Break`. -/
def sampleErrLogAdd (_ : SampleErr) (w : SampleWorld) : SampleWorld := w ++ ["logged"]

/-- Shared by the sample collaborators: `text.Break`. -/
def sampleTextBreak (w : SampleWorld) : SampleWorld := w ++ ["break"]

/-- Both steps succeed; the build step writes its package under `pkg/`. -/
def kOk : Collab String SampleErr SampleWorld where
  buildExec := fun b w => (none, b, w ++ ["built pkg/" ++ b.PackageName ++ ".tar.gz"])
  deployExec := fun d w => (none, d, w ++ ["deployed " ++ d.Path])
  errLogAdd := sampleErrLogAdd
  textBreak := sampleTextBreak

/-- The build step fails. -/
def kBuildFail : Collab String SampleErr SampleWorld where
  buildExec := fun b w => (some SampleErr.toolchainFailed, b, w)
  deployExec := fun d w => (none, d, w ++ ["deployed " ++ d.Path])
  errLogAdd := sampleErrLogAdd
  textBreak := sampleTextBreak

/-- The build step succeeds; the deploy step refuses version "1", which is
locked, and accepts every other one. -/
def kLocked : Collab String SampleErr SampleWorld where
  buildExec := fun b w => (none, b, w ++ ["built pkg/" ++ b.PackageName ++ ".tar.gz"])
  deployExec := fun d w =>
    if d.ServiceVersion.Value = "1" then (some SampleErr.versionNotEditable, d, w)
    else (none, d, w ++ ["deployed " ++ d.Path])
  errLogAdd := sampleErrLogAdd
  textBreak := sampleTextBreak

/-- No override set. -/
def cNone : PublishCommand String where
  manifest := "fastly.toml"
  path := ⟨"", false⟩
  domain := ⟨"", false⟩
  backend := ⟨"", false⟩
  backendPort := ⟨0, false⟩
  serviceVersion := ⟨"", false⟩
  comment := ⟨"", false⟩
  name := ⟨"", false⟩
  lang := ⟨"", false⟩
  includeSrc := ⟨false, false⟩
  force := ⟨false, false⟩
  timeout := ⟨0, false⟩

/-- Every override set, each to the zero value of its type. -/
def cZero : PublishCommand String where
  manifest := "fastly.toml"
  path := ⟨"", true⟩
  domain := ⟨"", true⟩
  backend := ⟨"", true⟩
  backendPort := ⟨0, true⟩
  serviceVersion := ⟨"", true⟩
  comment := ⟨"", true⟩
  name := ⟨"", true⟩
  lang := ⟨"", true⟩
  includeSrc := ⟨false, true⟩
  force := ⟨false, true⟩
  timeout := ⟨0, true⟩

/-- A build command with no zero field. -/
def bSample : BuildCommand where
  PackageName := "app"
  Lang := "rust"
  IncludeSrc := true
  Force := true
  Timeout := 60

/-- A deploy command with no zero field, whose manifest is the one the publish
command holds. -/
def dSample : DeployCommand String where
  Path := "pkg/app.tar.gz"
  ServiceVersion := ⟨"latest", true⟩
  Domain := "example.com"
  Backend := "origin.example.com"
  BackendPort := 443
  Comment := ⟨"first", true⟩
  Manifest := "fastly.toml"

/-- The sample state with no override set. -/
def sNone : PublishState String SampleWorld := ⟨cNone, bSample, dSample, []⟩

/-- The sample state with every override set to a zero value. -/
def sZero : PublishState String SampleWorld := ⟨cZero, bSample, dSample, []⟩

/-! ### Properties of the nested commands' fields -/

/-- Every build override that was set is what the build command holds. -/
def buildOverridesHeld {M : Type} (c : PublishCommand M) (b : BuildCommand) : Prop :=
  (c.name.WasSet = true → b.PackageName = c.name.Value) ∧
  (c.lang.WasSet = true → b.Lang = c.lang.Value) ∧
  (c.includeSrc.WasSet = true → b.IncludeSrc = c.includeSrc.Value) ∧
  (c.force.WasSet = true → b.Force = c.force.Value) ∧
  (c.timeout.WasSet = true → b.Timeout = c.timeout.Value)

/-- Every deploy override that was set is what the deploy command holds. -/
def deployOverridesHeld {M : Type} (c : PublishCommand M) (d : DeployCommand M) : Prop :=
  (c.path.WasSet = true → d.Path = c.path.Value) ∧
  (c.serviceVersion.WasSet = true → d.ServiceVersion.Value = c.serviceVersion.Value) ∧
  (c.domain.WasSet = true → d.Domain = c.domain.Value) ∧
  (c.backend.WasSet = true → d.Backend = c.backend.Value) ∧
  (c.backendPort.WasSet = true → d.BackendPort = c.backendPort.Value) ∧
  (c.comment.WasSet = true → d.Comment.Value = c.comment.Value)

/-- Every build field whose override was not set is as in `b0`. -/
def buildUnsetKept {M : Type} (c : PublishCommand M) (b0 b : BuildCommand) : Prop :=
  (c.name.WasSet = false → b.PackageName = b0.PackageName) ∧
  (c.lang.WasSet = false → b.Lang = b0.Lang) ∧
  (c.includeSrc.WasSet = false → b.IncludeSrc = b0.IncludeSrc) ∧
  (c.force.WasSet = false → b.Force = b0.Force) ∧
  (c.timeout.WasSet = false → b.Timeout = b0.Timeout)

/-- Every deploy field whose override was not set is as in `d0`. -/
def deployUnsetKept {M : Type} (c : PublishCommand M) (d0 d : DeployCommand M) : Prop :=
  (c.path.WasSet = false → d.Path = d0.Path) ∧
  (c.serviceVersion.WasSet = false → d.ServiceVersion = d0.ServiceVersion) ∧
  (c.domain.WasSet = false → d.Domain = d0.Domain) ∧
  (c.backend.WasSet = false → d.Backend = d0.Backend) ∧
  (c.backendPort.WasSet = false → d.BackendPort = d0.BackendPort) ∧
  (c.comment.WasSet = false → d.Comment = d0.Comment)

/-- No build override was set. -/
def noBuildOverride {M : Type} (c : PublishCommand M) : Prop :=
  c.name.WasSet = false ∧ c.lang.WasSet = false ∧ c.includeSrc.WasSet = false ∧
  c.force.WasSet = false ∧ c.timeout.WasSet = false

/-- The eleven overridable fields of the publish command. -/
inductive Field where
  | name | lang | includeSrc | force | timeout
  | path | serviceVersion | domain | backend | backendPort | comment
deriving DecidableEq, Repr

/-- The WasSet flag of an override. -/
def wasSet {M : Type} (c : PublishCommand M) : Field → Bool
  | Field.name => c.name.WasSet
  | Field.lang => c.lang.WasSet
  | Field.includeSrc => c.includeSrc.WasSet
  | Field.force => c.force.WasSet
  | Field.timeout => c.timeout.WasSet
  | Field.path => c.path.WasSet
  | Field.serviceVersion => c.serviceVersion.WasSet
  | Field.domain => c.domain.WasSet
  | Field.backend => c.backend.WasSet
  | Field.backendPort => c.backendPort.WasSet
  | Field.comment => c.comment.WasSet

/-- Exactly the override `x` was set. -/
def onlySet {M : Type} (c : PublishCommand M) (x : Field) : Prop :=
  ∀ f, wasSet c f = true ↔ f = x

/-- The build command's field for `f`, if `f` is a build override, is the same
in `b0` and `b`. -/
def buildFieldKept (f : Field) (b0 b : BuildCommand) : Prop :=
  match f with
  | Field.name => b.PackageName = b0.PackageName
  | Field.lang => b.Lang = b0.Lang
  | Field.includeSrc => b.IncludeSrc = b0.IncludeSrc
  | Field.force => b.Force = b0.Force
  | Field.timeout => b.Timeout = b0.Timeout
  | _ => True

/-- The deploy command's field for `f`, if `f` is a deploy override, is the same
in `d0` and `d`. -/
def deployFieldKept {M : Type} (f : Field) (d0 d : DeployCommand M) : Prop :=
  match f with
  | Field.path => d.Path = d0.Path
  | Field.serviceVersion => d.ServiceVersion = d0.ServiceVersion
  | Field.domain => d.Domain = d0.Domain
  | Field.backend => d.Backend = d0.Backend
  | Field.backendPort => d.BackendPort = d0.BackendPort
  | Field.comment => d.Comment = d0.Comment
  | _ => True

/-- The publish command as `publish --service-id abc --domain example.org`
leaves it: only the domain override is set, and the manifest carries the
service id given on the command line. -/
def cDomain : PublishCommand String :=
  { cNone with manifest := "fastly.toml --service-id=abc", domain := ⟨"example.org", true⟩ }

/-- The sample state of `publish --service-id abc --domain example.org`. -/
def sDomain : PublishState String SampleWorld := ⟨cDomain, bSample, dSample, []⟩

/-- What the deploy command holds when it is invoked in the run from `sDomain`. -/
def dDomainMerged : DeployCommand String :=
  { dSample with Domain := "example.org", Manifest := "fastly.toml --service-id=abc" }

/-- The publish command as `publish --path dist/other.tar.gz` leaves it. -/
def cPath : PublishCommand String :=
  { cNone with path := ⟨"dist/other.tar.gz", true⟩ }

/-- The sample state of `publish --path dist/other.tar.gz`. -/
def sPath : PublishState String SampleWorld := ⟨cPath, bSample, dSample, []⟩

/-- The publish command as `publish --version 1` leaves it. -/
def cVersion1 : PublishCommand String :=
  { cNone with serviceVersion := ⟨"1", true⟩ }

/-- The sample state of `publish --version 1`. -/
def sVersion1 : PublishState String SampleWorld := ⟨cVersion1, bSample, dSample, []⟩

/-- The build step fails because the remote service cannot be reached. -/
def kBuildUnavailable : Collab String SampleErr SampleWorld where
  buildExec := fun b w => (some SampleErr.remoteUnavailable, b, w)
  deployExec := fun d w => (none, d, w ++ ["deployed " ++ d.Path])
  errLogAdd := sampleErrLogAdd
  textBreak := sampleTextBreak

/-- The build step succeeds; the deploy step fails because the remote service
cannot be reached. -/
def kDeployUnavailable : Collab String SampleErr SampleWorld where
  buildExec := fun b w => (none, b, w ++ ["built pkg/" ++ b.PackageName ++ ".tar.gz"])
  deployExec := fun d w => (some SampleErr.remoteUnavailable, d, w)
  errLogAdd := sampleErrLogAdd
  textBreak := sampleTextBreak

/-- What the deploy command holds when it is invoked in the run from `sPath`. -/
def dPathMerged : DeployCommand String :=
  { dSample with Path := "dist/other.tar.gz" }

/-- What the deploy command holds when it is invoked in the run from
`sVersion1`. -/
def dVersion1Merged : DeployCommand String :=
  { dSample with ServiceVersion := ⟨"1", true⟩ }

/-- The state `s` with the service-version override replaced by `v`. -/
def withServiceVersion {M W : Type} (s : PublishState M W) (v : OptionalServiceVersion) :
    PublishState M W :=
  { s with c := { s.c with serviceVersion := v } }

/-- The two publish commands carry the same five build overrides. -/
def sameBuildOverrides {M : Type} (c1 c2 : PublishCommand M) : Prop :=
  c1.name = c2.name ∧ c1.lang = c2.lang ∧ c1.includeSrc = c2.includeSrc ∧
  c1.force = c2.force ∧ c1.timeout = c2.timeout

/-- The build step fails and, before it returns, changes its own receiver. -/
def kBuildFailDirty : Collab String SampleErr SampleWorld where
  buildExec := fun b w =>
    (some SampleErr.toolchainFailed, { b with Force := !b.Force }, w ++ ["partial build"])
  deployExec := fun d w => (none, d, w ++ ["deployed " ++ d.Path])
  errLogAdd := sampleErrLogAdd
  textBreak := sampleTextBreak

/-- A deploy command whose manifest is not the one the publish command holds. -/
def dStale : DeployCommand String :=
  { dSample with Manifest := "stale.toml" }

/-- The sample state with every override set and a stale deploy manifest. -/
def sStale : PublishState String SampleWorld := ⟨cZero, bSample, dStale, []⟩

/-! ### The flags of `compute publish` -/

/-- A registered flag, as far as the help text shows it: kingpin's `FlagClause`
with its name, its help text, its short letter and whether it is required. -/
structure FlagClause where
  name : String
  help : String
  short : Option Char
  required : Bool
deriving DecidableEq, Repr

/-- The call `CmdClause.Flag(name, help)`: a new flag has no short letter and is
not required; `Action` and the `...Var` setters change neither. -/
def Flag (name help : String) : FlagClause :=
  { name := name, help := help, short := none, required := false }

/-- The call `.Short(c)` on a flag. -/
def FlagClause.Short (f : FlagClause) (c : Char) : FlagClause :=
  { f with short := some c }

/-- The options `NewPublishCommand` passes to `RegisterServiceVersionFlag`, as
far as they bear on the registered flag. -/
structure ServiceVersionFlagOpts where
  Optional : Bool
deriving DecidableEq, Repr

/-- The flags `NewPublishCommand` registers (lines 45-63), in order. The two
helpers of `cmd.Base` are outside the embedded file and are parameters: each
stands for the flags the helper registers. -/
def NewPublishCommand (RegisterServiceIDFlag : List FlagClause)
    (RegisterServiceVersionFlag : ServiceVersionFlagOpts → List FlagClause) :
    List FlagClause :=
  -- Build flags
  [ Flag "name" "Package name",
    Flag "language" "Language type",
    Flag "include-source" "Include source code in built package",
    Flag "force" "Skip verification steps and force build",
    Flag "timeout" "Timeout, in seconds, for the build compilation step" ] ++
  -- Deploy flags
  RegisterServiceIDFlag ++
  RegisterServiceVersionFlag { Optional := true } ++
  [ (Flag "path" "Path to package").Short 'p',
    Flag "domain" "The name of the domain associated to the package",
    Flag "backend" "A hostname, IPv4, or IPv6 address for the package backend",
    Flag "backend-port" "A port number for the package backend",
    Flag "comment" "Human-readable comment" ]

/-- The flags documented for `compute build [<flags>]` in `fullFatHelpDefault`
(run_test.go lines 315-322); the usage line names no required flag. -/
def helpComputeBuild : List FlagClause :=
  [ ⟨"name", "Package name", none, false⟩,
    ⟨"language", "Language type", none, false⟩,
    ⟨"include-source", "Include source code in built package", none, false⟩,
    ⟨"force", "Skip verification steps and force build", none, false⟩,
    ⟨"timeout", "Timeout, in seconds, for the build compilation step", none, false⟩ ]

/-- The flags documented for `compute deploy [<flags>]` in `fullFatHelpDefault`
(run_test.go lines 341-355), wrapped help lines joined by a blank; the usage
line names no required flag. -/
def helpComputeDeploy : List FlagClause :=
  [ ⟨"service-id", "Service ID (falls back to FASTLY_SERVICE_ID, then fastly.toml)",
      some 's', false⟩,
    ⟨"version", "'latest', 'active', or the number of a specific version", none, false⟩,
    ⟨"path", "Path to package", some 'p', false⟩,
    ⟨"domain", "The name of the domain associated to the package", none, false⟩,
    ⟨"backend", "A hostname, IPv4, or IPv6 address for the package backend", none, false⟩,
    ⟨"backend-port", "A port number for the package backend", none, false⟩,
    ⟨"comment", "Human-readable comment", none, false⟩ ]

/-- The flags documented for `compute publish [<flags>]` in `fullFatHelpDefault`
(run_test.go lines 357-377), wrapped help lines joined by a blank; the usage
line names no required flag. -/
def helpComputePublish : List FlagClause :=
  [ ⟨"name", "Package name", none, false⟩,
    ⟨"language", "Language type", none, false⟩,
    ⟨"include-source", "Include source code in built package", none, false⟩,
    ⟨"force", "Skip verification steps and force build", none, false⟩,
    ⟨"timeout", "Timeout, in seconds, for the build compilation step", none, false⟩,
    ⟨"service-id", "Service ID (falls back to FASTLY_SERVICE_ID, then fastly.toml)",
      some 's', false⟩,
    ⟨"version", "'latest', 'active', or the number of a specific version", none, false⟩,
    ⟨"path", "Path to package", some 'p', false⟩,
    ⟨"domain", "The name of the domain associated to the package", none, false⟩,
    ⟨"backend", "A hostname, IPv4, or IPv6 address for the package backend", none, false⟩,
    ⟨"backend-port", "A port number for the package backend", none, false⟩,
    ⟨"comment", "Human-readable comment", none, false⟩ ]

/-- What the two helpers register in `compute publish`, as its help documents
it: the sixth and seventh documented flags. -/
def helpPublishHelperFlags : List FlagClause :=
  (helpComputePublish.drop 5).take 2

/-- A helper that registers the service-id flag as documented. -/
def sampleRegisterServiceIDFlag : List FlagClause :=
  [ (Flag "service-id"
      "Service ID (falls back to FASTLY_SERVICE_ID, then fastly.toml)").Short 's' ]

/-- A helper that registers the version flag as documented, required unless the
options say it is optional. -/
def sampleRegisterServiceVersionFlag (opts : ServiceVersionFlagOpts) : List FlagClause :=
  [ { Flag "version" "'latest', 'active', or the number of a specific version" with
      required := !opts.Optional } ]

/-! ### Version resolution -/

/-- Modelled from the spec: the version resolver is outside the embedded files.
A version selector is the tagged variant Latest, Active or Number(n). -/
inductive VersionSelector where
  | Latest
  | Active
  | Number (n : Int)
deriving DecidableEq, Repr

/-- Modelled from the spec: a snapshot of a remote version, with its number and
whether it is active and whether it is locked. -/
structure RemoteVersion where
  number : Int
  active : Bool
  locked : Bool
deriving DecidableEq, Repr

/-- Modelled from the spec: what the resolver produces, the operative number
and whether it is the number of a clone. -/
structure ResolvedVersion where
  number : Int
  wasCloned : Bool
deriving DecidableEq, Repr

/-- Modelled from the spec: the two failures of the resolver's contract. -/
inductive ResolveError where
  | VersionNotFound
  | VersionNotEditable
deriving DecidableEq, Repr

/-- Modelled from the spec: "`Latest` maps to the highest `number` in the
sequence"; an empty sequence has no such entry. -/
def latestVersion : List RemoteVersion → Option RemoteVersion
  | [] => none
  | v :: vs =>
    match latestVersion vs with
    | none => some v
    | some u => if u.number ≤ v.number then some v else some u

/-- Modelled from the spec: the selection step of the resolver. "`Latest` maps
to the highest `number` in the sequence; `Active` maps to the entry with
`active == true`; `Number(n)` maps to the entry with matching number"; of
several matching entries the first in the sequence is taken. -/
def selectVersion (selector : VersionSelector) (remoteVersions : List RemoteVersion) :
    Option RemoteVersion :=
  match selector with
  | VersionSelector.Latest => latestVersion remoteVersions
  | VersionSelector.Active => remoteVersions.find? (fun v => v.active)
  | VersionSelector.Number n => remoteVersions.find? (fun v => decide (v.number = n))

/-- Modelled from the spec: the resolver of the version directory, which is
outside the embedded files. Selection fails with VersionNotFound if no entry is
selected. "After selection, if the selected entry's `locked == true` or
`active == true` and the operation requires mutation: if `autocloneAllowed`,
request a clone from the remote collaborator and return the clone's number with
`wasCloned = true`; otherwise fail with VersionNotEditable." The collaborator's
`cloneVersion` and whether the operation requires mutation are parameters. -/
def resolve (cloneVersion : Int → RemoteVersion) (requiresMutation : Bool)
    (selector : VersionSelector) (remoteVersions : List RemoteVersion)
    (autocloneAllowed : Bool) : Except ResolveError ResolvedVersion :=
  match selectVersion selector remoteVersions with
  | none => Except.error ResolveError.VersionNotFound
  | some v =>
    if (v.locked || v.active) && requiresMutation then
      if autocloneAllowed then
        Except.ok { number := (cloneVersion v.number).number, wasCloned := true }
      else Except.error ResolveError.VersionNotEditable
    else Except.ok { number := v.number, wasCloned := false }

/-- The remote versions of the spec's end-to-end scenarios: version 1 active
and locked, version 2 editable. -/
def scenarioVersions : List RemoteVersion :=
  [⟨1, true, true⟩, ⟨2, false, false⟩]

/-- A version directory that gives every clone the number 3. -/
def cloneAsThree (_ : Int) : RemoteVersion := ⟨3, false, false⟩

/-- The bytes of a file or of an archive. -/
abbrev Bytes := List Nat

/-- Modelled from the spec: the packager is outside the embedded files. The
build artifact is a path, a size and the toolchain's exit code. -/
structure BuildArtifact where
  path : String
  sizeBytes : Int
  toolchainExitCode : Int
deriving DecidableEq, Repr

/-- Modelled from the spec: the package is a path, a digest and whether the
source is included. -/
structure Package where
  path : String
  digest : Nat
  includesSource : Bool
deriving DecidableEq, Repr

/-- Modelled from the spec: the one failure of the packager's contract. -/
inductive PackError where
  | PackagingError
deriving DecidableEq, Repr

/-- A file of the source tree as the file system hands it over: its path, its
bytes and its modification time. -/
structure FileEntry where
  path : String
  content : Bytes
  modTime : Nat
deriving DecidableEq, Repr

/-- What a packing finds on disk: the bytes behind a path, and the source tree
in the order the file system lists it. -/
structure FileSystem where
  read : String → Option Bytes
  sourceTree : List FileEntry

/-- A member of the archive: name, timestamp and bytes. -/
structure Member where
  name : String
  mtime : Nat
  content : Bytes
deriving DecidableEq, Repr

/-- What the spec leaves open about the packager: the archive format, the
digest function and where the archive is written. -/
structure Packager where
  encode : List Member → Bytes
  hash : Bytes → Nat
  archivePath : BuildArtifact → String

/-- Modelled from the spec: "stable timestamps": every member carries this
time, not the file's. -/
def stableTime : Nat := 0

/-- The archive member made of a source file. -/
def toMember (f : FileEntry) : Member :=
  { name := f.path, mtime := stableTime, content := f.content }

/-- The order of the members by name. -/
def memberLE (a b : Member) : Prop := a.name ≤ b.name

instance memberLE_decidable : DecidableRel memberLE :=
  fun a b => inferInstanceAs (Decidable (a.name ≤ b.name))

/-- Modelled from the spec: "stable member ordering": the members sorted by
name. -/
def orderMembers (ms : List Member) : List Member :=
  ms.insertionSort memberLE

/-- Modelled from the spec: `pack(artifact, includeSource)`, which "creates a
deterministic archive (stable member ordering, stable timestamps) containing
the artifact and, if requested, the original source tree, then computes a
content digest over the resulting archive bytes"; it fails with PackagingError
when the artifact cannot be read. The result is the package and the bytes of
the archive. -/
def pack (P : Packager) (fs : FileSystem) (artifact : BuildArtifact) (includeSource : Bool) :
    Except PackError (Package × Bytes) :=
  match fs.read artifact.path with
  | none => Except.error PackError.PackagingError
  | some bytes =>
    let source := if includeSource then orderMembers (fs.sourceTree.map toMember) else []
    let members := { name := artifact.path, mtime := stableTime, content := bytes } :: source
    let archive := P.encode members
    Except.ok ({ path := P.archivePath artifact, digest := P.hash archive,
                 includesSource := includeSource }, archive)

/-- What a source file contributes to a package: its path and its bytes. -/
def FileEntry.pathAndContent (f : FileEntry) : String × Bytes := (f.path, f.content)

/-- A sample packager: the archive is the members' bytes one after the other,
each behind its length, and the digest is the sum of the archive's bytes. -/
def samplePackager : Packager where
  encode := fun ms => (ms.map (fun m => m.content.length :: m.content)).flatten
  hash := fun bs => bs.sum
  archivePath := fun _ => "pkg/app.tar.gz"

/-- The sample artifact. -/
def sampleArtifact : BuildArtifact := ⟨"bin/main.wasm", 3, 0⟩

/-- A first look at the sample package's files. -/
def fsFirst : FileSystem where
  read := fun p => if p = "bin/main.wasm" then some [0, 97, 115] else none
  sourceTree := [⟨"src/lib.rs", [1, 2], 100⟩, ⟨"src/main.rs", [3], 200⟩]

/-- A second look at the same files: listed in another order, at other times. -/
def fsSecond : FileSystem where
  read := fun p => if p = "bin/main.wasm" then some [0, 97, 115] else none
  sourceTree := [⟨"src/main.rs", [3], 777⟩, ⟨"src/lib.rs", [1, 2], 555⟩]

/-- Whether a call is `ErrLog.Add`. -/
def Call.isErrLogAdd {M E W : Type} : Call M E W → Bool
  | Call.errLogAdd _ _ => true
  | _ => false

/-- The `ErrLog.Add` calls of a run, in order. -/
def errLogCalls {M E W : Type} (o : Outcome M E W) : List (Call M E W) :=
  o.calls.filter Call.isErrLogAdd

/-- A deploy command whose version and comment wrappers were never set. -/
def dUnset : DeployCommand String :=
  { dSample with ServiceVersion := ⟨"", false⟩, Comment := ⟨"", false⟩ }

/-- The sample state with every override set to a zero value and a deploy
command whose wrappers were never set. -/
def sZeroUnset : PublishState String SampleWorld := ⟨cZero, bSample, dUnset, []⟩

/-! ### `stripTrailingSpace` (pkg/app/run_test.go)

A Go string is a sequence of bytes. `bufio.Scanner`, `bufio.ScanLines` and
`strings.TrimRight` belong to the Go library; they are embedded with their
documented behaviour, the scanner with its default limit on the size of a
token. -/

/-- The bytes of an ASCII text. -/
def ascii (s : String) : Bytes := s.toList.map Char.toNat

/-- The cutset `" \t\r\n"` of the call to `strings.TrimRight`: space, tab,
carriage return, newline. -/
def cutset : Bytes := [32, 9, 13, 10]

/-- Go `strings.TrimRight(s, cutset)`: `s` without its trailing bytes that are
in the cutset. -/
def TrimRight (s cutset : Bytes) : Bytes :=
  s.rdropWhile (fun b => cutset.contains b)

/-- Go `bufio.dropCR`: drops one terminal carriage return from the data. -/
def dropCR (data : Bytes) : Bytes :=
  if data.getLast? = some 13 then data.dropLast else data

/-- Go `bufio.MaxScanTokenSize`, the size a scanner's buffer grows to unless
`Scanner.Buffer` is called. -/
def maxScanTokenSize : Nat := 64 * 1024

/-- One call of `Scanner.Scan` with the split function `bufio.ScanLines`, on the
input not yet consumed: `none` when `Scan` returns false, otherwise the token
(`scan.Text()`) and the input left. `Scan` returns false at the end of the
input, and also when the line (its bytes up to the newline or to the end of the
input) does not fit the buffer together with a terminator, which sets
`ErrTooLong`. The token is the line without one terminal carriage return; the
scanner advances past the line and its newline. -/
def Scan (input : Bytes) : Option (Bytes × Bytes) :=
  if input = [] then none
  else
    let line := input.takeWhile (fun b => b != 10)
    if maxScanTokenSize ≤ line.length then none
    else some (dropCR line, input.drop (line.length + 1))

/-- The loop `for scan.Scan() { ... }` of `stripTrailingSpace` (lines 64-67),
over the input not yet consumed and the buffer written so far; `fuel` bounds the
number of calls of `Scan`. -/
def stripLoop : Nat → Bytes → Bytes → Bytes
  | 0, _, buf => buf
  | fuel + 1, input, buf =>
    match Scan input with
    | none => buf
    | some (text, rest) => stripLoop fuel rest (buf ++ TrimRight text cutset ++ [10])

/-- The function `stripTrailingSpace` (lines 60-69). Every call of `Scan` that
returns a token consumes at least one byte, so one call more than the string
has bytes is enough (`stripLoop_fuel`). -/
def stripTrailingSpace (str : Bytes) : Bytes :=
  stripLoop (str.length + 1) str []

/-- The lines of a text: its maximal runs of bytes other than newline, each
ended by a newline or by the end of the text; a text that ends with a newline
has no further, empty line after it. -/
def linesOf : Bytes → List Bytes
  | [] => []
  | b :: bs =>
    if b = 10 then [] :: linesOf bs
    else
      match linesOf bs with
      | [] => [[b]]
      | l :: ls => (b :: l) :: ls

/-- A line without its trailing spaces, tabs and carriage returns. -/
def stripRight (line : Bytes) : Bytes :=
  line.rdropWhile (fun b => [32, 9, 13].contains b)

/-- The lines, each stripped on the right and followed by one newline. -/
def renderStripped (lines : List Bytes) : Bytes :=
  (lines.map (fun l => stripRight l ++ [10])).flatten

/-- A line of 65536 letters `a`. -/
def longLine : Bytes := List.replicate 65536 97

/-- A text of three lines whose second line is `longLine`. -/
def longSecondLine : Bytes := ascii "first" ++ 10 :: (longLine ++ 10 :: ascii "last\n")

/-- No byte of the text is a newline. -/
def noNewline (t : Bytes) : Prop := ∀ b ∈ t, b ≠ 10

/-- The line does not end with a space, a tab or a carriage return. -/
def cleanEnd (line : Bytes) : Prop :=
  line.getLast? ≠ some 32 ∧ line.getLast? ≠ some 9 ∧ line.getLast? ≠ some 13

/-- A text of one line, `longLine`, ended by a newline. -/
def longLineText : Bytes := longLine ++ [10]

/-- A text with trailing blanks, a carriage return, an empty line and no final
newline. -/
def untidyText : Bytes := ascii "USAGE \t\r\n  fastly [<flags>]  \n\nA tool"

/-- A text that ends with a newline and has no trailing blank on any line. -/
def tidyText : Bytes := ascii "USAGE\n  fastly [<flags>]\n\nA tool\n"

/-! ### The three paths through `Exec` -/

theorem Exec_of_build_err {M E W : Type} (k : Collab M E W) (s : PublishState M W) (e : E)
    (h : buildErr k s = some e) :
    Exec k s =
      { err := some e
        final := { s with build := buildAfter k s, world := k.errLogAdd e (worldAfterBuild k s) }
        calls := [Call.buildExec (resetBuild s.c s.build) s.deploy s.world,
                  Call.errLogAdd e (worldAfterBuild k s)] } := by
  unfold buildErr at h
  unfold Exec buildAfter worldAfterBuild
  rcases hb : k.buildExec (resetBuild s.c s.build) s.world with ⟨r, b1, w1⟩
  rw [hb] at h
  simp only at h
  subst h
  simp only [hb]

theorem Exec_of_deploy_err {M E W : Type} (k : Collab M E W) (s : PublishState M W) (e : E)
    (hb : buildErr k s = none) (hd : deployErr k s = some e) :
    Exec k s =
      { err := some e
        final := { s with
          build := buildAfter k s
          deploy := (k.deployExec (resetDeploy s.c s.deploy)
            (k.textBreak (worldAfterBuild k s))).2.1
          world := k.errLogAdd e (k.deployExec (resetDeploy s.c s.deploy)
            (k.textBreak (worldAfterBuild k s))).2.2 }
        calls := [Call.buildExec (resetBuild s.c s.build) s.deploy s.world,
                  Call.textBreak (worldAfterBuild k s),
                  Call.deployExec (buildAfter k s) (resetDeploy s.c s.deploy)
                    (k.textBreak (worldAfterBuild k s)),
                  Call.errLogAdd e (k.deployExec (resetDeploy s.c s.deploy)
                    (k.textBreak (worldAfterBuild k s))).2.2] } := by
  unfold deployErr at hd
  unfold buildErr at hb
  unfold worldAfterBuild at hd
  unfold Exec buildAfter worldAfterBuild
  rcases hx : k.buildExec (resetBuild s.c s.build) s.world with ⟨r, b1, w1⟩
  rw [hx] at hb hd
  simp only at hb hd
  subst hb
  rcases hy : k.deployExec (resetDeploy s.c s.deploy) (k.textBreak w1) with ⟨r2, d1, w3⟩
  rw [hy] at hd
  simp only at hd
  subst hd
  simp only [hx, hy]

theorem Exec_of_ok {M E W : Type} (k : Collab M E W) (s : PublishState M W)
    (hb : buildErr k s = none) (hd : deployErr k s = none) :
    Exec k s =
      { err := none
        final := { s with
          build := buildAfter k s
          deploy := (k.deployExec (resetDeploy s.c s.deploy)
            (k.textBreak (worldAfterBuild k s))).2.1
          world := (k.deployExec (resetDeploy s.c s.deploy)
            (k.textBreak (worldAfterBuild k s))).2.2 }
        calls := [Call.buildExec (resetBuild s.c s.build) s.deploy s.world,
                  Call.textBreak (worldAfterBuild k s),
                  Call.deployExec (buildAfter k s) (resetDeploy s.c s.deploy)
                    (k.textBreak (worldAfterBuild k s))] } := by
  unfold deployErr at hd
  unfold buildErr at hb
  unfold worldAfterBuild at hd
  unfold Exec buildAfter worldAfterBuild
  rcases hx : k.buildExec (resetBuild s.c s.build) s.world with ⟨r, b1, w1⟩
  rw [hx] at hb hd
  simp only at hb hd
  subst hb
  rcases hy : k.deployExec (resetDeploy s.c s.deploy) (k.textBreak w1) with ⟨r2, d1, w3⟩
  rw [hy] at hd
  simp only at hd
  subst hd
  simp only [hx, hy]

/-- The calls of a run, by the errors of the two steps. -/
theorem Exec_calls {M E W : Type} (k : Collab M E W) (s : PublishState M W) :
    (∃ e, buildErr k s = some e ∧ (Exec k s).err = some e ∧
      (Exec k s).calls = [Call.buildExec (resetBuild s.c s.build) s.deploy s.world,
                          Call.errLogAdd e (worldAfterBuild k s)]) ∨
    (buildErr k s = none ∧ (Exec k s).err = deployErr k s ∧
      ∃ tail, (tail = [] ∨ ∃ e w, tail = [Call.errLogAdd e w]) ∧
      (Exec k s).calls = [Call.buildExec (resetBuild s.c s.build) s.deploy s.world,
          Call.textBreak (worldAfterBuild k s),
          Call.deployExec (buildAfter k s) (resetDeploy s.c s.deploy)
            (k.textBreak (worldAfterBuild k s))] ++ tail) := by
  cases hb : buildErr k s with
  | some e =>
    left
    exact ⟨e, rfl, by rw [Exec_of_build_err k s e hb], by rw [Exec_of_build_err k s e hb]⟩
  | none =>
    right
    refine ⟨rfl, ?_⟩
    cases hd : deployErr k s with
    | some e =>
      rw [Exec_of_deploy_err k s e hb hd]
      exact ⟨rfl, _, Or.inr ⟨_, _, rfl⟩, rfl⟩
    | none =>
      rw [Exec_of_ok k s hb hd]
      exact ⟨rfl, [], Or.inl rfl, by simp⟩

/-- The value `Exec` returns, by the errors of the two steps. -/
theorem Exec_err_eq {M E W : Type} (k : Collab M E W) (s : PublishState M W) :
    (Exec k s).err = (match buildErr k s with
      | some e => some e
      | none => deployErr k s) := by
  rcases Exec_calls k s with ⟨e, he, hr, _⟩ | ⟨hb, hr, _⟩
  · rw [hr, he]
  · rw [hr, hb]

/-- The calls of a run: the build call first, then no further build call, and
one deploy call exactly when the build step returned nil. -/
theorem Exec_calls_shape {M E W : Type} (k : Collab M E W) (s : PublishState M W) :
    ∃ rest, (Exec k s).calls =
        Call.buildExec (resetBuild s.c s.build) s.deploy s.world :: rest ∧
      rest.countP Call.isBuildExec = 0 ∧
      rest.countP Call.isDeployExec = (if (buildErr k s).isNone then 1 else 0) ∧
      ∀ b d w, Call.deployExec b d w ∈ rest →
        b = buildAfter k s ∧ w = k.textBreak (worldAfterBuild k s) := by
  rcases Exec_calls k s with ⟨e, he, _, hc⟩ | ⟨hb, _, tail, ht, hc⟩
  · refine ⟨_, hc, ?_, ?_, ?_⟩
    · simp [Call.isBuildExec]
    · simp [Call.isDeployExec, he]
    · intro b d w hm
      simp at hm
  · rcases ht with rfl | ⟨e, w', rfl⟩
    · refine ⟨_, hc, ?_, ?_, ?_⟩
      · simp [Call.isBuildExec]
      · simp [Call.isDeployExec, hb]
      · intro b d w hm
        simp at hm
        exact ⟨hm.1, hm.2.2⟩
    · refine ⟨_, hc, ?_, ?_, ?_⟩
      · simp [Call.isBuildExec]
      · simp [Call.isDeployExec, hb]
      · intro b d w hm
        simp at hm
        exact ⟨hm.1, hm.2.2⟩

theorem buildCount_Exec {M E W : Type} (k : Collab M E W) (s : PublishState M W) :
    buildCount (Exec k s) = 1 := by
  obtain ⟨rest, hc, h1, _⟩ := Exec_calls_shape k s
  unfold buildCount
  rw [hc, List.countP_cons, h1]
  simp [Call.isBuildExec]

theorem deployCount_Exec {M E W : Type} (k : Collab M E W) (s : PublishState M W) :
    deployCount (Exec k s) = (if (buildErr k s).isNone then 1 else 0) := by
  obtain ⟨rest, hc, _, h2, _⟩ := Exec_calls_shape k s
  unfold deployCount
  rw [hc, List.countP_cons, h2]
  simp [Call.isDeployExec]

/-! ### Fail-fast -/

/-- C1: in every run in which the build step returns an error, the deploy step
is invoked zero times: no call of the run is a deploy call, and the outcome is
the same whatever the deploy step would have done. -/
theorem deploy_not_invoked_of_build_error {M E W : Type} (k : Collab M E W)
    (s : PublishState M W) (e : E) (h : buildErr k s = some e) :
    deployCount (Exec k s) = 0 ∧
    (∀ call ∈ (Exec k s).calls, call.isDeployExec = false) ∧
    ∀ f : DeployCommand M → W → Option E × DeployCommand M × W,
      Exec { k with deployExec := f } s = Exec k s := by
  refine ⟨?_, ?_, ?_⟩
  · rw [Exec_of_build_err k s e h]
    simp [deployCount, Call.isDeployExec]
  · rw [Exec_of_build_err k s e h]
    intro call hc
    simp only [List.mem_cons, List.mem_singleton, List.not_mem_nil, or_false] at hc
    rcases hc with rfl | rfl <;> rfl
  · intro f
    rw [Exec_of_build_err k s e h, Exec_of_build_err { k with deployExec := f } s e h]
    rfl

theorem deploy_not_invoked_of_build_error_witness :
    buildErr kBuildFail sZero = some SampleErr.toolchainFailed ∧
    deployCount (Exec kBuildFail sZero) = 0 :=
  ⟨rfl, (deploy_not_invoked_of_build_error kBuildFail sZero SampleErr.toolchainFailed rfl).1⟩

/-! ### The override merge -/

/-- The build command after the merge, field by field. -/
theorem resetBuild_fields {M : Type} (c : PublishCommand M) (b : BuildCommand) :
    (resetBuild c b).PackageName = (if c.name.WasSet then c.name.Value else b.PackageName) ∧
    (resetBuild c b).Lang = (if c.lang.WasSet then c.lang.Value else b.Lang) ∧
    (resetBuild c b).IncludeSrc =
      (if c.includeSrc.WasSet then c.includeSrc.Value else b.IncludeSrc) ∧
    (resetBuild c b).Force = (if c.force.WasSet then c.force.Value else b.Force) ∧
    (resetBuild c b).Timeout = (if c.timeout.WasSet then c.timeout.Value else b.Timeout) := by
  unfold resetBuild
  simp only [apply_ite BuildCommand.PackageName, apply_ite BuildCommand.Lang,
    apply_ite BuildCommand.IncludeSrc, apply_ite BuildCommand.Force,
    apply_ite BuildCommand.Timeout, ite_self, and_self]

/-- The deploy command after the merge, field by field. -/
theorem resetDeploy_fields {M : Type} (c : PublishCommand M) (d : DeployCommand M) :
    (resetDeploy c d).Path = (if c.path.WasSet then c.path.Value else d.Path) ∧
    (resetDeploy c d).ServiceVersion =
      (if c.serviceVersion.WasSet then c.serviceVersion else d.ServiceVersion) ∧
    (resetDeploy c d).Domain = (if c.domain.WasSet then c.domain.Value else d.Domain) ∧
    (resetDeploy c d).Backend = (if c.backend.WasSet then c.backend.Value else d.Backend) ∧
    (resetDeploy c d).BackendPort =
      (if c.backendPort.WasSet then c.backendPort.Value else d.BackendPort) ∧
    (resetDeploy c d).Comment = (if c.comment.WasSet then c.comment else d.Comment) ∧
    (resetDeploy c d).Manifest = c.manifest := by
  unfold resetDeploy
  simp only [apply_ite DeployCommand.Path, apply_ite DeployCommand.ServiceVersion,
    apply_ite DeployCommand.Domain, apply_ite DeployCommand.Backend,
    apply_ite DeployCommand.BackendPort, apply_ite DeployCommand.Comment, ite_self, and_self]

theorem resetBuild_held {M : Type} (c : PublishCommand M) (b : BuildCommand) :
    buildOverridesHeld c (resetBuild c b) := by
  obtain ⟨h1, h2, h3, h4, h5⟩ := resetBuild_fields c b
  unfold buildOverridesHeld
  rw [h1, h2, h3, h4, h5]
  refine ⟨?_, ?_, ?_, ?_, ?_⟩ <;> intro h <;> simp [h]

theorem resetDeploy_held {M : Type} (c : PublishCommand M) (d : DeployCommand M) :
    deployOverridesHeld c (resetDeploy c d) := by
  obtain ⟨h1, h2, h3, h4, h5, h6, _⟩ := resetDeploy_fields c d
  unfold deployOverridesHeld
  rw [h1, h2, h3, h4, h5, h6]
  refine ⟨?_, ?_, ?_, ?_, ?_, ?_⟩ <;> intro h <;> simp [h]

theorem resetBuild_kept {M : Type} (c : PublishCommand M) (b : BuildCommand) :
    buildUnsetKept c b (resetBuild c b) := by
  obtain ⟨h1, h2, h3, h4, h5⟩ := resetBuild_fields c b
  unfold buildUnsetKept
  rw [h1, h2, h3, h4, h5]
  refine ⟨?_, ?_, ?_, ?_, ?_⟩ <;> intro h <;> simp [h]

theorem resetDeploy_kept {M : Type} (c : PublishCommand M) (d : DeployCommand M) :
    deployUnsetKept c d (resetDeploy c d) := by
  obtain ⟨h1, h2, h3, h4, h5, h6, _⟩ := resetDeploy_fields c d
  unfold deployUnsetKept
  rw [h1, h2, h3, h4, h5, h6]
  refine ⟨?_, ?_, ?_, ?_, ?_, ?_⟩ <;> intro h <;> simp [h]

theorem resetBuild_of_none {M : Type} (c : PublishCommand M) (b : BuildCommand)
    (h : noBuildOverride c) : resetBuild c b = b := by
  obtain ⟨h1, h2, h3, h4, h5⟩ := h
  simp [resetBuild, h1, h2, h3, h4, h5]

/-- The step calls of a run carry the merged receivers. -/
theorem mem_calls_buildExec {M E W : Type} (k : Collab M E W) (s : PublishState M W)
    (b : BuildCommand) (d : DeployCommand M) (w : W)
    (h : Call.buildExec b d w ∈ (Exec k s).calls) :
    b = resetBuild s.c s.build ∧ d = s.deploy ∧ w = s.world := by
  rcases Exec_calls k s with ⟨e, _, _, hc⟩ | ⟨_, _, tail, ht, hc⟩
  · rw [hc] at h
    simpa using h
  · rw [hc] at h
    rcases ht with rfl | ⟨e, w', rfl⟩ <;> simpa using h

theorem mem_calls_deployExec {M E W : Type} (k : Collab M E W) (s : PublishState M W)
    (b : BuildCommand) (d : DeployCommand M) (w : W)
    (h : Call.deployExec b d w ∈ (Exec k s).calls) :
    buildErr k s = none ∧ b = buildAfter k s ∧ d = resetDeploy s.c s.deploy ∧
      w = k.textBreak (worldAfterBuild k s) := by
  rcases Exec_calls k s with ⟨e, _, _, hc⟩ | ⟨hb, _, tail, ht, hc⟩
  · rw [hc] at h
    simp at h
  · rw [hc] at h
    refine ⟨hb, ?_⟩
    rcases ht with rfl | ⟨e, w', rfl⟩ <;> simpa using h

theorem buildExec_mem_calls {M E W : Type} (k : Collab M E W) (s : PublishState M W) :
    Call.buildExec (resetBuild s.c s.build) s.deploy s.world ∈ (Exec k s).calls := by
  rcases Exec_calls k s with ⟨e, _, _, hc⟩ | ⟨_, _, tail, _, hc⟩ <;> rw [hc] <;> simp

theorem deployExec_mem_calls {M E W : Type} (k : Collab M E W) (s : PublishState M W)
    (hb : buildErr k s = none) :
    Call.deployExec (buildAfter k s) (resetDeploy s.c s.deploy)
      (k.textBreak (worldAfterBuild k s)) ∈ (Exec k s).calls := by
  rcases Exec_calls k s with ⟨e, he, _, _⟩ | ⟨_, _, tail, _, hc⟩
  · rw [hb] at he
    cases he
  · rw [hc]
    simp

/-- C2: the build step is invoked in every run and the deploy step in every run
whose build succeeded, and at each invocation every override that was
explicitly set (five build fields, six deploy fields) is the value the invoked
command holds, whatever it held before and whatever the value is. -/
theorem set_overrides_held_at_invocation {M E W : Type} (k : Collab M E W)
    (s : PublishState M W) :
    (∃ b d w, Call.buildExec b d w ∈ (Exec k s).calls) ∧
    (buildErr k s = none → ∃ b d w, Call.deployExec b d w ∈ (Exec k s).calls) ∧
    (∀ b d w, Call.buildExec b d w ∈ (Exec k s).calls → buildOverridesHeld s.c b) ∧
    (∀ b d w, Call.deployExec b d w ∈ (Exec k s).calls → deployOverridesHeld s.c d) := by
  refine ⟨⟨_, _, _, buildExec_mem_calls k s⟩, fun hb => ⟨_, _, _, deployExec_mem_calls k s hb⟩,
    ?_, ?_⟩
  · intro b d w h
    rw [(mem_calls_buildExec k s b d w h).1]
    exact resetBuild_held _ _
  · intro b d w h
    rw [(mem_calls_deployExec k s b d w h).2.2.1]
    exact resetDeploy_held _ _

theorem set_overrides_held_at_invocation_witness :
    buildOverridesHeld cZero (⟨"", "", false, false, 0⟩ : BuildCommand) ∧
    deployOverridesHeld cZero
      (⟨"", ⟨"", true⟩, "", "", 0, ⟨"", true⟩, "fastly.toml"⟩ : DeployCommand String) :=
  ⟨(set_overrides_held_at_invocation kOk sZero).2.2.1 _ dSample []
      (List.Mem.head _),
   (set_overrides_held_at_invocation kOk sZero).2.2.2 _ _
      ["built pkg/.tar.gz", "break"]
      (List.Mem.tail _ (List.Mem.tail _ (List.Mem.head _)))⟩

/-- C3: at each invocation of a nested command, every field whose override was
not explicitly set holds the value the command held before the run, whatever
the override's Value is; with no build override set the build command is
invoked with its five fields unchanged. -/
theorem unset_overrides_kept_at_invocation {M E W : Type} (k : Collab M E W)
    (s : PublishState M W) :
    (∀ b d w, Call.buildExec b d w ∈ (Exec k s).calls → buildUnsetKept s.c s.build b) ∧
    (∀ b d w, Call.deployExec b d w ∈ (Exec k s).calls → deployUnsetKept s.c s.deploy d) ∧
    (noBuildOverride s.c → ∀ b d w, Call.buildExec b d w ∈ (Exec k s).calls → b = s.build) := by
  refine ⟨?_, ?_, ?_⟩
  · intro b d w h
    rw [(mem_calls_buildExec k s b d w h).1]
    exact resetBuild_kept _ _
  · intro b d w h
    rw [(mem_calls_deployExec k s b d w h).2.2.1]
    exact resetDeploy_kept _ _
  · intro hn b d w h
    rw [(mem_calls_buildExec k s b d w h).1]
    exact resetBuild_of_none _ _ hn

theorem unset_overrides_kept_at_invocation_witness :
    noBuildOverride sNone.c ∧
    Call.buildExec bSample dSample [] ∈ (Exec kOk sNone).calls ∧
    bSample = sNone.build ∧
    deployUnsetKept cNone dSample dSample :=
  ⟨⟨rfl, rfl, rfl, rfl, rfl⟩, List.Mem.head _,
   (unset_overrides_kept_at_invocation kOk sNone).2.2 ⟨rfl, rfl, rfl, rfl, rfl⟩
      bSample dSample [] (List.Mem.head _),
   (unset_overrides_kept_at_invocation kOk sNone).2.1 bSample dSample
      ["built pkg/app.tar.gz", "break"]
      (List.Mem.tail _ (List.Mem.tail _ (List.Mem.head _)))⟩

/-! ### Error propagation -/

/-- C4: `Exec` returns nil exactly when the build step and the deploy step both
return nil; a build error is returned unchanged, and after a successful build a
deploy error is returned unchanged. -/
theorem Exec_err_propagates {M E W : Type} (k : Collab M E W) (s : PublishState M W) :
    ((Exec k s).err = none ↔ buildErr k s = none ∧ deployErr k s = none) ∧
    (∀ e, buildErr k s = some e → (Exec k s).err = some e) ∧
    (∀ e, buildErr k s = none → deployErr k s = some e → (Exec k s).err = some e) := by
  rw [Exec_err_eq]
  refine ⟨?_, ?_, ?_⟩
  · cases hb : buildErr k s with
    | some e => simp
    | none => simp
  · intro e hb
    rw [hb]
  · intro e hb hd
    rw [hb]
    exact hd

theorem Exec_err_propagates_witness :
    (Exec kBuildFail sZero).err = some SampleErr.toolchainFailed ∧
    (Exec kOk sZero).err = none :=
  ⟨(Exec_err_propagates kBuildFail sZero).2.1 SampleErr.toolchainFailed rfl,
   (Exec_err_propagates kOk sZero).1.2 ⟨rfl, rfl⟩⟩

/-! ### Frame of the merge -/

theorem wasSet_false_of_onlySet {M : Type} (c : PublishCommand M) (x f : Field)
    (h : onlySet c x) (hf : f ≠ x) : wasSet c f = false := by
  cases hw : wasSet c f with
  | false => rfl
  | true => exact absurd ((h f).1 hw) hf

theorem buildFieldKept_resetBuild {M : Type} (c : PublishCommand M) (b : BuildCommand)
    (f : Field) (hf : wasSet c f = false) : buildFieldKept f b (resetBuild c b) := by
  obtain ⟨h1, h2, h3, h4, h5⟩ := resetBuild_fields c b
  cases f <;> simp only [buildFieldKept, wasSet] at hf ⊢
  · rw [h1, hf]; rfl
  · rw [h2, hf]; rfl
  · rw [h3, hf]; rfl
  · rw [h4, hf]; rfl
  · rw [h5, hf]; rfl

theorem deployFieldKept_resetDeploy {M : Type} (c : PublishCommand M) (d : DeployCommand M)
    (f : Field) (hf : wasSet c f = false) : deployFieldKept f d (resetDeploy c d) := by
  obtain ⟨h1, h2, h3, h4, h5, h6, _⟩ := resetDeploy_fields c d
  cases f <;> simp only [deployFieldKept, wasSet] at hf ⊢
  · rw [h1, hf]; rfl
  · rw [h2, hf]; rfl
  · rw [h3, hf]; rfl
  · rw [h4, hf]; rfl
  · rw [h5, hf]; rfl
  · rw [h6, hf]; rfl

/-- C5, as stated, fails: in the run of `publish --service-id abc --domain
example.org` only the domain override is set and the build succeeds, yet the
deploy command is invoked with a Manifest that differs from the one it held. -/
theorem only_set_field_differs_counterexample :
    onlySet sDomain.c Field.domain ∧
    buildErr kOk sDomain = none ∧
    Call.deployExec bSample dDomainMerged
      ["built pkg/app.tar.gz", "break"] ∈ (Exec kOk sDomain).calls ∧
    dDomainMerged.Manifest ≠ sDomain.deploy.Manifest := by
  refine ⟨?_, rfl, List.Mem.tail _ (List.Mem.tail _ (List.Mem.head _)), by decide⟩
  intro f
  cases f <;> simp [wasSet, sDomain, cDomain, cNone]

/-- C5, amended: when exactly one override X is set, the build command is
invoked differing from what it held in no field other than the one for X, and
the deploy command is invoked differing from what it held in no field other
than the one for X and Manifest, which is the publish command's manifest. -/
theorem only_set_field_differs {M E W : Type} (k : Collab M E W) (s : PublishState M W)
    (x : Field) (h : onlySet s.c x) :
    (∀ b d w, Call.buildExec b d w ∈ (Exec k s).calls →
      d = s.deploy ∧ ∀ f, f ≠ x → buildFieldKept f s.build b) ∧
    (∀ b d w, Call.deployExec b d w ∈ (Exec k s).calls →
      d.Manifest = s.c.manifest ∧ ∀ f, f ≠ x → deployFieldKept f s.deploy d) := by
  refine ⟨?_, ?_⟩
  · intro b d w hc
    obtain ⟨hb, hd, _⟩ := mem_calls_buildExec k s b d w hc
    refine ⟨hd, fun f hf => ?_⟩
    rw [hb]
    exact buildFieldKept_resetBuild _ _ f (wasSet_false_of_onlySet _ x f h hf)
  · intro b d w hc
    obtain ⟨_, _, hd, _⟩ := mem_calls_deployExec k s b d w hc
    rw [hd]
    exact ⟨(resetDeploy_fields s.c s.deploy).2.2.2.2.2.2,
      fun f hf => deployFieldKept_resetDeploy _ _ f (wasSet_false_of_onlySet _ x f h hf)⟩

theorem only_set_field_differs_witness :
    onlySet sDomain.c Field.domain ∧
    deployFieldKept Field.path sDomain.deploy dDomainMerged :=
  ⟨by intro f; cases f <;> simp [wasSet, sDomain, cDomain, cNone],
   ((only_set_field_differs kOk sDomain Field.domain
      (by intro f; cases f <;> simp [wasSet, sDomain, cDomain, cNone])).2 bSample _
      ["built pkg/app.tar.gz", "break"]
      (List.Mem.tail _ (List.Mem.tail _ (List.Mem.head _)))).2 Field.path (by decide)⟩

/-! ### Order of the merge and of the two steps -/

/-- C6, as stated, fails: in the run of `publish --path dist/other.tar.gz` the
path override is set, yet when the build step is invoked the deploy command
still holds its old Path; the override is written after the build step, and is
in place when the deploy step is invoked. -/
theorem merge_before_execution_counterexample :
    sPath.c.path.WasSet = true ∧
    Call.buildExec bSample dSample [] ∈ (Exec kOk sPath).calls ∧
    dSample.Path ≠ sPath.c.path.Value ∧
    Call.deployExec bSample dPathMerged ["built pkg/app.tar.gz", "break"]
      ∈ (Exec kOk sPath).calls ∧
    dPathMerged.Path ≠ dSample.Path :=
  ⟨rfl, List.Mem.head _, by decide, List.Mem.tail _ (List.Mem.tail _ (List.Mem.head _)),
   by decide⟩

/-- C6, amended: the build-field merge is complete before the build step is
invoked, and at that moment no deploy field has been written; the deploy-field
merge is made after the build step has returned and is complete before the
deploy step is invoked, with the build command as the build step left it; after
its last step has started `Exec` writes no field of either command. -/
theorem merge_phases {M E W : Type} (k : Collab M E W) (s : PublishState M W) :
    (∀ b d w, Call.buildExec b d w ∈ (Exec k s).calls →
      b = resetBuild s.c s.build ∧ buildOverridesHeld s.c b ∧ d = s.deploy) ∧
    (∀ b d w, Call.deployExec b d w ∈ (Exec k s).calls →
      b = buildAfter k s ∧ d = resetDeploy s.c s.deploy ∧ deployOverridesHeld s.c d) ∧
    (Exec k s).final.build = buildAfter k s ∧
    (Exec k s).final.deploy =
      (if (buildErr k s).isNone then
        (k.deployExec (resetDeploy s.c s.deploy) (k.textBreak (worldAfterBuild k s))).2.1
      else s.deploy) := by
  refine ⟨?_, ?_, ?_, ?_⟩
  · intro b d w hc
    obtain ⟨hb, hd, _⟩ := mem_calls_buildExec k s b d w hc
    exact ⟨hb, hb ▸ resetBuild_held _ _, hd⟩
  · intro b d w hc
    obtain ⟨_, hb, hd, _⟩ := mem_calls_deployExec k s b d w hc
    exact ⟨hb, hd, hd ▸ resetDeploy_held _ _⟩
  · cases hb : buildErr k s with
    | some e => rw [Exec_of_build_err k s e hb]
    | none =>
      cases hd : deployErr k s with
      | some e => rw [Exec_of_deploy_err k s e hb hd]
      | none => rw [Exec_of_ok k s hb hd]
  · cases hb : buildErr k s with
    | some e => rw [Exec_of_build_err k s e hb]; simp
    | none =>
      cases hd : deployErr k s with
      | some e => rw [Exec_of_deploy_err k s e hb hd]; simp
      | none => rw [Exec_of_ok k s hb hd]; simp

theorem merge_phases_witness :
    dSample = sZero.deploy ∧
    deployOverridesHeld sZero.c
      (⟨"", ⟨"", true⟩, "", "", 0, ⟨"", true⟩, "fastly.toml"⟩ : DeployCommand String) :=
  ⟨((merge_phases kOk sZero).1 _ dSample [] (List.Mem.head _)).2.2,
   ((merge_phases kOk sZero).2.1 _ _ ["built pkg/.tar.gz", "break"]
      (List.Mem.tail _ (List.Mem.tail _ (List.Mem.head _)))).2.2⟩

/-- C7: in every run the build step is invoked exactly once, as the first call;
the deploy step is invoked once if the build step returned nil and not at all
otherwise, later in the call order than the build step, on the build command
and the world that the build step returned; no step is invoked again after it
fails. -/
theorem steps_invoked_once_in_order {M E W : Type} (k : Collab M E W)
    (s : PublishState M W) :
    buildCount (Exec k s) = 1 ∧
    deployCount (Exec k s) ≤ 1 ∧
    deployCount (Exec k s) = (if (buildErr k s).isNone then 1 else 0) ∧
    (∃ rest, (Exec k s).calls =
        Call.buildExec (resetBuild s.c s.build) s.deploy s.world :: rest ∧
      rest.countP Call.isBuildExec = 0 ∧
      rest.countP Call.isDeployExec = deployCount (Exec k s) ∧
      ∀ b d w, Call.deployExec b d w ∈ rest →
        b = buildAfter k s ∧ w = k.textBreak (worldAfterBuild k s)) := by
  obtain ⟨rest, hc, h1, h2, h3⟩ := Exec_calls_shape k s
  have hd := deployCount_Exec k s
  refine ⟨buildCount_Exec k s, ?_, hd, rest, hc, h1, by rw [hd, h2], h3⟩
  rw [hd]
  split <;> simp

theorem steps_invoked_once_in_order_witness :
    buildCount (Exec kLocked sVersion1) = 1 ∧ deployCount (Exec kLocked sVersion1) = 1 ∧
    buildCount (Exec kBuildFail sZero) = 1 ∧ deployCount (Exec kBuildFail sZero) = 0 :=
  ⟨(steps_invoked_once_in_order kLocked sVersion1).1,
   (steps_invoked_once_in_order kLocked sVersion1).2.2.1,
   (steps_invoked_once_in_order kBuildFail sZero).1,
   (steps_invoked_once_in_order kBuildFail sZero).2.2.1⟩

/-! ### The service version and the build step -/

/-- C8, as stated, fails: in the run of `publish --version 1`, where version 1
is locked and the deploy step refuses it with VersionNotEditable, the build
step has been invoked once, as the first call, before the version is looked
at. -/
theorem version_checked_before_build_counterexample :
    sVersion1.c.serviceVersion = ⟨"1", true⟩ ∧
    (Exec kLocked sVersion1).err = some SampleErr.versionNotEditable ∧
    buildCount (Exec kLocked sVersion1) = 1 ∧
    (Exec kLocked sVersion1).calls =
      [Call.buildExec bSample dSample [],
       Call.textBreak ["built pkg/app.tar.gz"],
       Call.deployExec bSample dVersion1Merged ["built pkg/app.tar.gz", "break"],
       Call.errLogAdd SampleErr.versionNotEditable ["built pkg/app.tar.gz", "break"]] :=
  ⟨rfl, rfl, rfl, rfl⟩

/-- C8, amended: whatever the service-version override is, the build step is
invoked exactly once, as the first call, on the same receiver and world; the
override reaches the deploy command only after a successful build, so an error
of the run is either the build step's error, which does not depend on the
override, or the error of the deploy step invoked after the build step. -/
theorem build_runs_whatever_the_version {M E W : Type} (k : Collab M E W)
    (s : PublishState M W) (v : OptionalServiceVersion) :
    buildCount (Exec k (withServiceVersion s v)) = 1 ∧
    (Exec k (withServiceVersion s v)).calls.head? =
      some (Call.buildExec (resetBuild s.c s.build) s.deploy s.world) ∧
    buildErr k (withServiceVersion s v) = buildErr k s ∧
    (∀ e, (Exec k (withServiceVersion s v)).err = some e →
      buildErr k s = some e ∨
      (buildErr k s = none ∧ deployErr k (withServiceVersion s v) = some e ∧
        ∃ b d w, Call.deployExec b d w ∈ (Exec k (withServiceVersion s v)).calls ∧
          (v.WasSet = true → d.ServiceVersion = v))) := by
  have hbe : buildErr k (withServiceVersion s v) = buildErr k s := rfl
  refine ⟨buildCount_Exec k _, ?_, hbe, ?_⟩
  · obtain ⟨rest, hc, _⟩ := Exec_calls_shape k (withServiceVersion s v)
    rw [hc]
    rfl
  · intro e he
    rw [Exec_err_eq, hbe] at he
    cases hb : buildErr k s with
    | some e' =>
      left
      rw [hb] at he
      exact he
    | none =>
      right
      rw [hb] at he
      refine ⟨rfl, he, _, _, _, deployExec_mem_calls k _ (hbe.trans hb), ?_⟩
      intro hv
      rw [(resetDeploy_fields _ _).2.1]
      show (if v.WasSet = true then v else _) = v
      rw [if_pos hv]

theorem build_runs_whatever_the_version_witness :
    (Exec kLocked (withServiceVersion sNone ⟨"1", true⟩)).err
      = some SampleErr.versionNotEditable ∧
    (buildErr kLocked sNone = some SampleErr.versionNotEditable ∨
      (buildErr kLocked sNone = none ∧
        deployErr kLocked (withServiceVersion sNone ⟨"1", true⟩)
          = some SampleErr.versionNotEditable ∧
        ∃ b d w, Call.deployExec b d w
            ∈ (Exec kLocked (withServiceVersion sNone ⟨"1", true⟩)).calls ∧
          ((⟨"1", true⟩ : OptionalServiceVersion).WasSet = true →
            d.ServiceVersion = ⟨"1", true⟩))) :=
  ⟨rfl, (build_runs_whatever_the_version kLocked sNone ⟨"1", true⟩).2.2.2
      SampleErr.versionNotEditable rfl⟩

/-! ### What the returned value tells -/

/-- C9, as stated, fails: one run fails in the build step and another in the
deploy step, both because the remote service cannot be reached, and `Exec`
returns the same value in both. -/
theorem result_names_stage_counterexample :
    buildErr kBuildUnavailable sNone = some SampleErr.remoteUnavailable ∧
    buildErr kDeployUnavailable sNone = none ∧
    deployErr kDeployUnavailable sNone = some SampleErr.remoteUnavailable ∧
    (Exec kBuildUnavailable sNone).err = (Exec kDeployUnavailable sNone).err :=
  ⟨rfl, rfl, rfl, rfl⟩

/-- C9, amended: a run that fails in the build step and a run that fails in the
deploy step both return a non-nil value, unlike a run that succeeds; that value
is the failing step's own error, so the two returned values differ exactly when
the two steps' errors differ. -/
theorem result_is_the_failing_steps_error {M E W : Type} (k1 k2 : Collab M E W)
    (s1 s2 : PublishState M W) (e1 e2 : E)
    (h1 : buildErr k1 s1 = some e1)
    (h2 : buildErr k2 s2 = none) (h3 : deployErr k2 s2 = some e2) :
    (Exec k1 s1).err = some e1 ∧ (Exec k2 s2).err = some e2 ∧
    (Exec k1 s1).err ≠ none ∧ (Exec k2 s2).err ≠ none ∧
    ((Exec k1 s1).err = (Exec k2 s2).err ↔ e1 = e2) := by
  have a : (Exec k1 s1).err = some e1 := by rw [Exec_err_eq, h1]
  have b : (Exec k2 s2).err = some e2 := by rw [Exec_err_eq, h2]; exact h3
  rw [a, b]
  simp

theorem result_is_the_failing_steps_error_witness :
    (Exec kBuildFail sNone).err = some SampleErr.toolchainFailed ∧
    (Exec kLocked sVersion1).err = some SampleErr.versionNotEditable ∧
    (Exec kBuildFail sNone).err ≠ (Exec kLocked sVersion1).err :=
  ⟨(result_is_the_failing_steps_error kBuildFail kLocked sNone sVersion1
      SampleErr.toolchainFailed SampleErr.versionNotEditable rfl rfl rfl).1,
   (result_is_the_failing_steps_error kBuildFail kLocked sNone sVersion1
      SampleErr.toolchainFailed SampleErr.versionNotEditable rfl rfl rfl).2.1,
   fun h => absurd ((result_is_the_failing_steps_error kBuildFail kLocked sNone sVersion1
      SampleErr.toolchainFailed SampleErr.versionNotEditable rfl rfl rfl).2.2.2.2.1 h)
      (by decide)⟩

/-! ### What the deploy step is invoked with -/

/-- C10, as stated, fails: in the run of `publish --path dist/other.tar.gz` the
build step succeeds and leaves its package at pkg/app.tar.gz, and the deploy
step is invoked with the package path dist/other.tar.gz. -/
theorem deploy_input_is_build_output_counterexample :
    buildErr kOk sPath = none ∧
    worldAfterBuild kOk sPath = ["built pkg/app.tar.gz"] ∧
    Call.deployExec bSample dPathMerged ["built pkg/app.tar.gz", "break"]
      ∈ (Exec kOk sPath).calls ∧
    dPathMerged.Path = "dist/other.tar.gz" ∧
    dPathMerged.Path ≠ "pkg/app.tar.gz" :=
  ⟨rfl, rfl, List.Mem.tail _ (List.Mem.tail _ (List.Mem.head _)), rfl, by decide⟩

/-- C10, amended: in every run where the build step succeeds the deploy step is
invoked once, on the world the build step left (after one text.Break) and with
the build command as the build step left it; the package path it is invoked
with is the path override if that was set and the deploy command's own Path
otherwise. -/
theorem deploy_invoked_on_build_world {M E W : Type} (k : Collab M E W)
    (s : PublishState M W) (hb : buildErr k s = none) :
    deployCount (Exec k s) = 1 ∧
    Call.deployExec (buildAfter k s) (resetDeploy s.c s.deploy)
      (k.textBreak (worldAfterBuild k s)) ∈ (Exec k s).calls ∧
    (∀ b d w, Call.deployExec b d w ∈ (Exec k s).calls →
      b = buildAfter k s ∧ w = k.textBreak (worldAfterBuild k s) ∧
      d.Path = (if s.c.path.WasSet then s.c.path.Value else s.deploy.Path)) := by
  refine ⟨?_, deployExec_mem_calls k s hb, ?_⟩
  · rw [deployCount_Exec, hb]
    rfl
  · intro b d w hc
    obtain ⟨_, h1, h2, h3⟩ := mem_calls_deployExec k s b d w hc
    refine ⟨h1, h3, ?_⟩
    rw [h2]
    exact (resetDeploy_fields s.c s.deploy).1

theorem deploy_invoked_on_build_world_witness :
    buildErr kOk sNone = none ∧ deployCount (Exec kOk sNone) = 1 ∧
    Call.deployExec bSample dSample ["built pkg/app.tar.gz", "break"]
      ∈ (Exec kOk sNone).calls :=
  ⟨rfl, (deploy_invoked_on_build_world kOk sNone rfl).1,
   (deploy_invoked_on_build_world kOk sNone rfl).2.1⟩

/-! ### What `Exec` leaves untouched -/

/-- The publish command and the two nested commands after a run. -/
theorem Exec_final {M E W : Type} (k : Collab M E W) (s : PublishState M W) :
    (Exec k s).final.c = s.c ∧
    (Exec k s).final.build = buildAfter k s ∧
    (Exec k s).final.deploy =
      (if (buildErr k s).isNone then
        (k.deployExec (resetDeploy s.c s.deploy) (k.textBreak (worldAfterBuild k s))).2.1
      else s.deploy) := by
  cases hb : buildErr k s with
  | some e => rw [Exec_of_build_err k s e hb]; simp
  | none =>
    cases hd : deployErr k s with
    | some e => rw [Exec_of_deploy_err k s e hb hd]; simp
    | none => rw [Exec_of_ok k s hb hd]; simp

/-- C11: `Exec` never writes the publish command's own fields: when it returns,
with or without an error, the publish command (its manifest and each of the
eleven overrides, Value and WasSet) is what it was before the call. -/
theorem overrides_not_mutated {M E W : Type} (k : Collab M E W) (s : PublishState M W) :
    (Exec k s).final.c = s.c ∧
    (∀ f, wasSet (Exec k s).final.c f = wasSet s.c f) ∧
    (Exec k s).final.c.name.Value = s.c.name.Value ∧
    (Exec k s).final.c.lang.Value = s.c.lang.Value ∧
    (Exec k s).final.c.includeSrc.Value = s.c.includeSrc.Value ∧
    (Exec k s).final.c.force.Value = s.c.force.Value ∧
    (Exec k s).final.c.timeout.Value = s.c.timeout.Value ∧
    (Exec k s).final.c.path.Value = s.c.path.Value ∧
    (Exec k s).final.c.serviceVersion.Value = s.c.serviceVersion.Value ∧
    (Exec k s).final.c.domain.Value = s.c.domain.Value ∧
    (Exec k s).final.c.backend.Value = s.c.backend.Value ∧
    (Exec k s).final.c.backendPort.Value = s.c.backendPort.Value ∧
    (Exec k s).final.c.comment.Value = s.c.comment.Value := by
  have h := (Exec_final k s).1
  rw [h]
  simp

/-- C18: if the build step fails, `Exec` invokes no deploy step and leaves the
deploy command as it was: path, service version, domain, backend, backend port,
comment and manifest are not written, whichever overrides were set. -/
theorem deploy_untouched_of_build_error {M E W : Type} (k : Collab M E W)
    (s : PublishState M W) (e : E) (h : buildErr k s = some e) :
    (Exec k s).final.deploy = s.deploy ∧
    (∀ b d w, Call.buildExec b d w ∈ (Exec k s).calls → d = s.deploy) ∧
    (∀ b d w, Call.deployExec b d w ∉ (Exec k s).calls) := by
  refine ⟨?_, ?_, ?_⟩
  · rw [(Exec_final k s).2.2, h]
    rfl
  · intro b d w hc
    exact (mem_calls_buildExec k s b d w hc).2.1
  · intro b d w hc
    have hn := (mem_calls_deployExec k s b d w hc).1
    rw [h] at hn
    cases hn

theorem deploy_untouched_of_build_error_witness :
    buildErr kBuildFailDirty sStale = some SampleErr.toolchainFailed ∧
    (Exec kBuildFailDirty sStale).final.deploy = dStale ∧
    resetDeploy sStale.c dStale ≠ dStale :=
  ⟨rfl, (deploy_untouched_of_build_error kBuildFailDirty sStale
      SampleErr.toolchainFailed rfl).1, by decide⟩

/-- C19: the deploy step is invoked in every run whose build succeeded, and
whenever it is invoked the deploy command's Manifest is the publish command's
manifest, whatever the deploy command held and whichever overrides are set. -/
theorem manifest_copied_at_deploy {M E W : Type} (k : Collab M E W)
    (s : PublishState M W) :
    (buildErr k s = none → ∃ b d w, Call.deployExec b d w ∈ (Exec k s).calls) ∧
    (∀ b d w, Call.deployExec b d w ∈ (Exec k s).calls → d.Manifest = s.c.manifest) := by
  refine ⟨fun hb => ⟨_, _, _, deployExec_mem_calls k s hb⟩, ?_⟩
  intro b d w hc
  rw [(mem_calls_deployExec k s b d w hc).2.2.1]
  exact (resetDeploy_fields s.c s.deploy).2.2.2.2.2.2

theorem manifest_copied_at_deploy_witness :
    sStale.deploy.Manifest = "stale.toml" ∧
    (resetDeploy sStale.c sStale.deploy).Manifest = "fastly.toml" :=
  ⟨rfl, (manifest_copied_at_deploy kOk sStale).2 _ _ ["built pkg/.tar.gz", "break"]
      (List.Mem.tail _ (List.Mem.tail _ (List.Mem.head _)))⟩

/-- C20: the build-field merge changes no deploy field (at the build call the
deploy command is as before the run) and the deploy-field merge changes no
build field (at the deploy call the build command is as the build step left
it); so two runs that start from the same build command and carry the same
build overrides invoke the build step on the same build command, whatever
their deploy overrides, deploy commands, worlds and collaborators are. -/
theorem merge_halves_independent {M E W : Type} (k1 k2 : Collab M E W)
    (s1 s2 : PublishState M W) :
    (∀ b d w, Call.buildExec b d w ∈ (Exec k1 s1).calls → d = s1.deploy) ∧
    (∀ b d w, Call.deployExec b d w ∈ (Exec k1 s1).calls → b = buildAfter k1 s1) ∧
    (s1.build = s2.build → sameBuildOverrides s1.c s2.c →
      ∀ b1 d1 w1 b2 d2 w2, Call.buildExec b1 d1 w1 ∈ (Exec k1 s1).calls →
        Call.buildExec b2 d2 w2 ∈ (Exec k2 s2).calls → b1 = b2) := by
  refine ⟨?_, ?_, ?_⟩
  · intro b d w hc
    exact (mem_calls_buildExec k1 s1 b d w hc).2.1
  · intro b d w hc
    exact (mem_calls_deployExec k1 s1 b d w hc).2.1
  · intro hbuild ho b1 d1 w1 b2 d2 w2 h1 h2
    rw [(mem_calls_buildExec k1 s1 b1 d1 w1 h1).1, (mem_calls_buildExec k2 s2 b2 d2 w2 h2).1,
      hbuild]
    obtain ⟨e1, e2, e3, e4, e5⟩ := ho
    unfold resetBuild
    rw [e1, e2, e3, e4, e5]

theorem merge_halves_independent_witness :
    sNone.c.path ≠ sPath.c.path ∧ sameBuildOverrides sNone.c sPath.c ∧
    resetBuild sNone.c sNone.build = resetBuild sPath.c sPath.build :=
  ⟨by decide, ⟨rfl, rfl, rfl, rfl, rfl⟩,
   (merge_halves_independent kOk kLocked sNone sPath).2.2 rfl ⟨rfl, rfl, rfl, rfl, rfl⟩
     _ dSample [] _ dSample [] (List.Mem.head _) (List.Mem.head _)⟩

/-! ### The flags of `compute publish` -/

/-- C12: the ten flags `NewPublishCommand` registers itself are, in order, the
five documented for `compute build` and the last five documented for `compute
deploy`, with the two helpers' flags in between; when the helpers register
service-id and version as the help of `compute publish` documents them, the
registered flags are exactly those documented for `compute build` followed by
those documented for `compute deploy`, with the same names, short letters and
help texts, and none is required. -/
theorem publish_flags_are_build_then_deploy (sid : List FlagClause)
    (ver : ServiceVersionFlagOpts → List FlagClause) :
    NewPublishCommand sid ver =
      helpComputeBuild ++ (sid ++ ver { Optional := true }) ++ helpComputeDeploy.drop 2 ∧
    (sid ++ ver { Optional := true } = helpPublishHelperFlags →
      NewPublishCommand sid ver = helpComputeBuild ++ helpComputeDeploy ∧
      NewPublishCommand sid ver = helpComputePublish ∧
      (NewPublishCommand sid ver).map FlagClause.name =
        ["name", "language", "include-source", "force", "timeout",
         "service-id", "version", "path", "domain", "backend", "backend-port", "comment"] ∧
      ∀ f ∈ NewPublishCommand sid ver, f.required = false) := by
  have h1 : NewPublishCommand sid ver =
      helpComputeBuild ++ (sid ++ ver { Optional := true }) ++ helpComputeDeploy.drop 2 := by
    unfold NewPublishCommand
    simp only [List.append_assoc]
    rfl
  refine ⟨h1, fun h => ?_⟩
  have h2 : NewPublishCommand sid ver = helpComputePublish := by
    rw [h1, h]
    rfl
  refine ⟨by rw [h2]; rfl, h2, by rw [h2]; rfl, ?_⟩
  rw [h2]
  intro f hf
  simp only [helpComputePublish, List.mem_cons, List.not_mem_nil, or_false] at hf
  rcases hf with rfl | rfl | rfl | rfl | rfl | rfl | rfl | rfl | rfl | rfl | rfl | rfl <;> rfl

theorem publish_flags_are_build_then_deploy_witness :
    sampleRegisterServiceIDFlag ++ sampleRegisterServiceVersionFlag { Optional := true }
      = helpPublishHelperFlags ∧
    NewPublishCommand sampleRegisterServiceIDFlag sampleRegisterServiceVersionFlag
      = helpComputeBuild ++ helpComputeDeploy :=
  ⟨rfl, ((publish_flags_are_build_then_deploy sampleRegisterServiceIDFlag
      sampleRegisterServiceVersionFlag).2 rfl).1⟩

/-! ### Version resolution -/

/-- C14: for every sequence of remote versions and every selector Number(n)
such that no version in the sequence has number n, resolution fails with
VersionNotFound, whatever the other arguments are. -/
theorem resolve_number_absent (cloneVersion : Int → RemoteVersion) (requiresMutation : Bool)
    (n : Int) (remoteVersions : List RemoteVersion) (autocloneAllowed : Bool)
    (h : ∀ v ∈ remoteVersions, v.number ≠ n) :
    resolve cloneVersion requiresMutation (VersionSelector.Number n) remoteVersions
      autocloneAllowed = Except.error ResolveError.VersionNotFound := by
  have hs : selectVersion (VersionSelector.Number n) remoteVersions = none := by
    unfold selectVersion
    simp only [List.find?_eq_none, decide_eq_true_eq]
    exact h
  unfold resolve
  rw [hs]

theorem resolve_number_absent_witness :
    (∀ v ∈ scenarioVersions, v.number ≠ 7) ∧
    resolve cloneAsThree true (VersionSelector.Number 7) scenarioVersions true
      = Except.error ResolveError.VersionNotFound :=
  ⟨by decide, resolve_number_absent cloneAsThree true 7 scenarioVersions true (by decide)⟩

/-- C15, as stated, fails: the scenario's sequence has an active version, and
for an operation that requires mutation resolving Active fails with
VersionNotEditable when autoclone is not allowed and returns a clone's number
with wasCloned == true when it is. -/
theorem resolve_active_counterexample :
    (∃ v ∈ scenarioVersions, v.active = true) ∧
    resolve cloneAsThree true VersionSelector.Active scenarioVersions false
      = Except.error ResolveError.VersionNotEditable ∧
    resolve cloneAsThree true VersionSelector.Active scenarioVersions true
      = Except.ok { number := 3, wasCloned := true } :=
  ⟨⟨⟨1, true, true⟩, by decide, rfl⟩, rfl, rfl⟩

/-- C15, amended: for every sequence containing at least one active version,
resolving Active selects the first active version; for an operation that does
not require mutation the result is that version's number with wasCloned ==
false; for one that requires mutation it is the clone's number with wasCloned
== true if autoclone is allowed, and the failure VersionNotEditable if not. -/
theorem resolve_active (cloneVersion : Int → RemoteVersion) (requiresMutation : Bool)
    (remoteVersions : List RemoteVersion) (autocloneAllowed : Bool)
    (h : ∃ v ∈ remoteVersions, v.active = true) :
    ∃ v ∈ remoteVersions, v.active = true ∧
      remoteVersions.find? (fun u => u.active) = some v ∧
      resolve cloneVersion requiresMutation VersionSelector.Active remoteVersions
          autocloneAllowed =
        (if requiresMutation then
          (if autocloneAllowed then
            Except.ok { number := (cloneVersion v.number).number, wasCloned := true }
          else Except.error ResolveError.VersionNotEditable)
        else Except.ok { number := v.number, wasCloned := false }) := by
  cases hf : remoteVersions.find? (fun u => u.active) with
  | none =>
    obtain ⟨v, hv, ha⟩ := h
    rw [List.find?_eq_none] at hf
    exact absurd ha (hf v hv)
  | some v =>
    have ha : v.active = true := by simpa using List.find?_some hf
    refine ⟨v, List.mem_of_find?_eq_some hf, ha, rfl, ?_⟩
    unfold resolve selectVersion
    simp only [hf, ha, Bool.or_true, Bool.true_and]

theorem resolve_active_witness :
    (∃ v ∈ scenarioVersions, v.active = true) ∧
    ∃ v ∈ scenarioVersions, v.active = true ∧
      scenarioVersions.find? (fun u => u.active) = some v ∧
      resolve cloneAsThree false VersionSelector.Active scenarioVersions false =
        (if false = true then
          (if false = true then
            Except.ok { number := (cloneAsThree v.number).number, wasCloned := true }
          else Except.error ResolveError.VersionNotEditable)
        else Except.ok { number := v.number, wasCloned := false }) :=
  ⟨⟨⟨1, true, true⟩, by decide, rfl⟩,
   resolve_active cloneAsThree false scenarioVersions false ⟨⟨1, true, true⟩, by decide, rfl⟩⟩

theorem map_toMember_perm (t1 t2 : List FileEntry)
    (h : (t1.map FileEntry.pathAndContent).Perm (t2.map FileEntry.pathAndContent)) :
    (t1.map toMember).Perm (t2.map toMember) := by
  have e : ∀ t : List FileEntry, t.map toMember =
      (t.map FileEntry.pathAndContent).map
        (fun q => ({ name := q.1, mtime := stableTime, content := q.2 } : Member)) := by
    intro t
    rw [List.map_map]
    rfl
  rw [e t1, e t2]
  exact h.map _

theorem map_toMember_names (t : List FileEntry) :
    (t.map toMember).map Member.name = t.map FileEntry.path := by
  rw [List.map_map]
  rfl

/-- Sorting by name does not depend on the order of the input when the names
are distinct. -/
theorem orderMembers_eq_of_perm (l1 l2 : List Member) (hp : l1.Perm l2)
    (hn : (l1.map Member.name).Nodup) : orderMembers l1 = orderMembers l2 := by
  haveI : IsTotal Member memberLE := ⟨fun a b => le_total a.name b.name⟩
  haveI : IsTrans Member memberLE := ⟨fun a b c h1 h2 => le_trans (α := String) h1 h2⟩
  haveI : IsAntisymm Member (fun a b => a.name < b.name) :=
    ⟨fun a b h1 h2 => absurd h1 (lt_asymm h2)⟩
  have strict : ∀ l : List Member, (l.map Member.name).Nodup →
      List.Sorted (fun a b => a.name < b.name) (orderMembers l) := by
    intro l hl
    have hs : List.Pairwise memberLE (orderMembers l) := List.sorted_insertionSort memberLE l
    have hperm : (orderMembers l).Perm l := List.perm_insertionSort memberLE l
    have hnd : ((orderMembers l).map Member.name).Nodup := (hperm.map _).nodup_iff.mpr hl
    have hne : List.Pairwise (fun a b => a.name ≠ b.name) (orderMembers l) := by
      rw [List.Nodup, List.pairwise_map] at hnd
      exact hnd
    exact (hs.and hne).imp (fun h => lt_of_le_of_ne h.1 h.2)
  have hn2 : (l2.map Member.name).Nodup := (hp.map _).nodup_iff.mp hn
  have hperm : (orderMembers l1).Perm (orderMembers l2) :=
    ((List.perm_insertionSort memberLE l1).trans hp).trans
      (List.perm_insertionSort memberLE l2).symm
  exact List.eq_of_perm_of_sorted hperm (strict l1 hn) (strict l2 hn2)

/-- C17: packing the same build artifact twice, with the same bytes behind its
path, the same includeSource flag and the same source files (paths distinct, in
whatever order and with whatever file times the file system gives them),
produces the same result both times: the same archive bytes and the same
package, digest included, or the same failure. -/
theorem pack_deterministic (P : Packager) (fs1 fs2 : FileSystem) (artifact : BuildArtifact)
    (includeSource : Bool)
    (hbytes : fs1.read artifact.path = fs2.read artifact.path)
    (htree : (fs1.sourceTree.map FileEntry.pathAndContent).Perm
      (fs2.sourceTree.map FileEntry.pathAndContent))
    (hpaths : (fs1.sourceTree.map FileEntry.path).Nodup) :
    pack P fs1 artifact includeSource = pack P fs2 artifact includeSource := by
  have hsort : orderMembers (fs1.sourceTree.map toMember)
      = orderMembers (fs2.sourceTree.map toMember) :=
    orderMembers_eq_of_perm _ _ (map_toMember_perm _ _ htree)
      (by rw [map_toMember_names]; exact hpaths)
  unfold pack
  rw [hbytes, hsort]

theorem pack_deterministic_witness :
    fsFirst.sourceTree ≠ fsSecond.sourceTree ∧
    pack samplePackager fsFirst sampleArtifact true
      = pack samplePackager fsSecond sampleArtifact true :=
  ⟨by decide,
   pack_deterministic samplePackager fsFirst fsSecond sampleArtifact true rfl
     (List.Perm.swap _ _ _) (by decide)⟩

/-! ### More on the merge -/

theorem buildCommand_eq_of_fields (a b : BuildCommand) (h1 : a.PackageName = b.PackageName)
    (h2 : a.Lang = b.Lang) (h3 : a.IncludeSrc = b.IncludeSrc) (h4 : a.Force = b.Force)
    (h5 : a.Timeout = b.Timeout) : a = b := by
  cases a
  cases b
  simp only at h1 h2 h3 h4 h5
  simp only [BuildCommand.mk.injEq]
  exact ⟨h1, h2, h3, h4, h5⟩

theorem deployCommand_eq_of_fields {M : Type} (a b : DeployCommand M) (h1 : a.Path = b.Path)
    (h2 : a.ServiceVersion = b.ServiceVersion) (h3 : a.Domain = b.Domain)
    (h4 : a.Backend = b.Backend) (h5 : a.BackendPort = b.BackendPort)
    (h6 : a.Comment = b.Comment) (h7 : a.Manifest = b.Manifest) : a = b := by
  cases a
  cases b
  simp only at h1 h2 h3 h4 h5 h6 h7
  simp only [DeployCommand.mk.injEq]
  exact ⟨h1, h2, h3, h4, h5, h6, h7⟩

/-- C21: the override merge is idempotent: for every publish command and every
build and deploy command, merging twice gives the same build command and the
same deploy command as merging once. -/
theorem merge_idempotent {M : Type} (c : PublishCommand M) (b : BuildCommand)
    (d : DeployCommand M) :
    resetBuild c (resetBuild c b) = resetBuild c b ∧
    resetDeploy c (resetDeploy c d) = resetDeploy c d := by
  constructor
  · obtain ⟨h1, h2, h3, h4, h5⟩ := resetBuild_fields c (resetBuild c b)
    obtain ⟨g1, g2, g3, g4, g5⟩ := resetBuild_fields c b
    apply buildCommand_eq_of_fields
    · rw [h1, g1]; split <;> rfl
    · rw [h2, g2]; split <;> rfl
    · rw [h3, g3]; split <;> rfl
    · rw [h4, g4]; split <;> rfl
    · rw [h5, g5]; split <;> rfl
  · obtain ⟨h1, h2, h3, h4, h5, h6, h7⟩ := resetDeploy_fields c (resetDeploy c d)
    obtain ⟨g1, g2, g3, g4, g5, g6, g7⟩ := resetDeploy_fields c d
    apply deployCommand_eq_of_fields
    · rw [h1, g1]; split <;> rfl
    · rw [h2, g2]; split <;> rfl
    · rw [h3, g3]; split <;> rfl
    · rw [h4, g4]; split <;> rfl
    · rw [h5, g5]; split <;> rfl
    · rw [h6, g6]; split <;> rfl
    · rw [h7, g7]

/-- C22: the deploy step is invoked in every run whose build succeeded, and
whenever it is invoked the deploy command's service version and comment are
whole wrappers: where the override was set, the override itself, so with its
Value and with WasSet == true; where it was not set, the wrapper the deploy
command held before the run, Value and WasSet alike. -/
theorem wrappers_copied_whole {M E W : Type} (k : Collab M E W) (s : PublishState M W) :
    (buildErr k s = none → ∃ b d w, Call.deployExec b d w ∈ (Exec k s).calls) ∧
    (∀ b d w, Call.deployExec b d w ∈ (Exec k s).calls →
      (s.c.serviceVersion.WasSet = true →
        d.ServiceVersion.Value = s.c.serviceVersion.Value ∧ d.ServiceVersion.WasSet = true) ∧
      (s.c.serviceVersion.WasSet = false → d.ServiceVersion = s.deploy.ServiceVersion) ∧
      (s.c.comment.WasSet = true →
        d.Comment.Value = s.c.comment.Value ∧ d.Comment.WasSet = true) ∧
      (s.c.comment.WasSet = false → d.Comment = s.deploy.Comment)) := by
  refine ⟨fun hb => ⟨_, _, _, deployExec_mem_calls k s hb⟩, ?_⟩
  intro b d w hc
  rw [(mem_calls_deployExec k s b d w hc).2.2.1]
  obtain ⟨_, h2, _, _, _, h6, _⟩ := resetDeploy_fields s.c s.deploy
  rw [h2, h6]
  refine ⟨?_, ?_, ?_, ?_⟩
  · intro h
    rw [if_pos h]
    exact ⟨rfl, h⟩
  · intro h
    rw [h]
    rfl
  · intro h
    rw [if_pos h]
    exact ⟨rfl, h⟩
  · intro h
    rw [h]
    rfl

theorem wrappers_copied_whole_witness :
    sZeroUnset.deploy.ServiceVersion.WasSet = false ∧
    ((resetDeploy sZeroUnset.c sZeroUnset.deploy).ServiceVersion.Value = "" ∧
      (resetDeploy sZeroUnset.c sZeroUnset.deploy).ServiceVersion.WasSet = true) ∧
    (resetDeploy sNone.c sNone.deploy).Comment = ⟨"first", true⟩ :=
  ⟨rfl,
   ((wrappers_copied_whole kOk sZeroUnset).2 _ _ ["built pkg/.tar.gz", "break"]
      (List.Mem.tail _ (List.Mem.tail _ (List.Mem.head _)))).1 rfl,
   ((wrappers_copied_whole kOk sNone).2 _ _ ["built pkg/app.tar.gz", "break"]
      (List.Mem.tail _ (List.Mem.tail _ (List.Mem.head _)))).2.2.2 rfl⟩

/-! ### The error log -/

/-- C23: `Exec` calls `ErrLog.Add` exactly when it returns an error: a run that
returns an error makes one such call, with the error it returns, as its last
call, and the world it leaves is the one that call produced; a run that returns
nil makes none. -/
theorem errLog_add_iff_error {M E W : Type} (k : Collab M E W) (s : PublishState M W) :
    (errLogCalls (Exec k s)).length = (if (Exec k s).err.isSome then 1 else 0) ∧
    (∀ e, (Exec k s).err = some e →
      ∃ w, errLogCalls (Exec k s) = [Call.errLogAdd e w] ∧
        (Exec k s).calls.getLast? = some (Call.errLogAdd e w) ∧
        (Exec k s).final.world = k.errLogAdd e w) ∧
    ((Exec k s).err = none → errLogCalls (Exec k s) = []) := by
  cases hb : buildErr k s with
  | some e =>
    rw [Exec_of_build_err k s e hb]
    refine ⟨rfl, ?_, ?_⟩
    · intro e' he
      simp only [Option.some.injEq] at he
      subst he
      exact ⟨_, rfl, rfl, rfl⟩
    · intro he
      cases he
  | none =>
    cases hd : deployErr k s with
    | some e =>
      rw [Exec_of_deploy_err k s e hb hd]
      refine ⟨rfl, ?_, ?_⟩
      · intro e' he
        simp only [Option.some.injEq] at he
        subst he
        exact ⟨_, rfl, rfl, rfl⟩
      · intro he
        cases he
    | none =>
      rw [Exec_of_ok k s hb hd]
      refine ⟨rfl, ?_, ?_⟩
      · intro e' he
        cases he
      · intro _
        rfl

theorem errLog_add_iff_error_witness :
    (Exec kLocked sVersion1).err = some SampleErr.versionNotEditable ∧
    (∃ w, errLogCalls (Exec kLocked sVersion1)
        = [Call.errLogAdd SampleErr.versionNotEditable w] ∧
      (Exec kLocked sVersion1).calls.getLast?
        = some (Call.errLogAdd SampleErr.versionNotEditable w) ∧
      (Exec kLocked sVersion1).final.world
        = kLocked.errLogAdd SampleErr.versionNotEditable w) ∧
    errLogCalls (Exec kOk sNone) = [] :=
  ⟨rfl, (errLog_add_iff_error kLocked sVersion1).2.1 SampleErr.versionNotEditable rfl,
   (errLog_add_iff_error kOk sNone).2.2 rfl⟩

/-! ### `stripTrailingSpace` -/

theorem stripLoop_of_none (fuel : Nat) (input buf : Bytes) (h : Scan input = none) :
    stripLoop fuel input buf = buf := by
  cases fuel with
  | zero => rfl
  | succ n => simp only [stripLoop, h]

theorem stripLoop_of_some (fuel : Nat) (input buf text rest : Bytes)
    (h : Scan input = some (text, rest)) :
    stripLoop (fuel + 1) input buf = stripLoop fuel rest (buf ++ TrimRight text cutset ++ [10]) := by
  simp only [stripLoop, h]

theorem Scan_nil : Scan [] = none := rfl

/-- What a successful `Scan` returns. -/
theorem Scan_some (input text rest : Bytes) (h : Scan input = some (text, rest)) :
    input ≠ [] ∧ (input.takeWhile (fun b => b != 10)).length < maxScanTokenSize ∧
    text = dropCR (input.takeWhile (fun b => b != 10)) ∧
    rest = input.drop ((input.takeWhile (fun b => b != 10)).length + 1) := by
  unfold Scan at h
  by_cases h0 : input = []
  · simp [h0] at h
  · by_cases h1 : maxScanTokenSize ≤ (input.takeWhile (fun b => b != 10)).length
    · simp [h0, h1] at h
    · simp only [h0, h1, if_false, Option.some.injEq, Prod.mk.injEq] at h
      exact ⟨h0, Nat.lt_of_not_le h1, h.1.symm, h.2.symm⟩

theorem Scan_rest_length (input text rest : Bytes) (h : Scan input = some (text, rest)) :
    rest.length < input.length := by
  obtain ⟨h0, _, _, hr⟩ := Scan_some input text rest h
  rw [hr, List.length_drop]
  have : 0 < input.length := List.length_pos.mpr h0
  omega

/-- The buffer written so far is only appended to. -/
theorem stripLoop_buf (fuel : Nat) : ∀ input buf : Bytes,
    stripLoop fuel input buf = buf ++ stripLoop fuel input [] := by
  induction fuel with
  | zero => intro input buf; simp [stripLoop]
  | succ n ih =>
    intro input buf
    cases hs : Scan input with
    | none => rw [stripLoop_of_none _ _ _ hs, stripLoop_of_none _ _ _ hs]; simp
    | some tr =>
      obtain ⟨text, rest⟩ := tr
      rw [stripLoop_of_some _ _ _ _ _ hs, stripLoop_of_some _ _ _ _ _ hs, ih rest,
        ih rest ([] ++ TrimRight text cutset ++ [10])]
      simp [List.append_assoc]

/-- More fuel than the input has bytes changes nothing. -/
theorem stripLoop_fuel_eq (f1 : Nat) : ∀ (f2 : Nat) (input buf : Bytes),
    input.length < f1 → input.length < f2 →
    stripLoop f1 input buf = stripLoop f2 input buf := by
  induction f1 with
  | zero => intro f2 input buf h1; omega
  | succ n ih =>
    intro f2 input buf h1 h2
    cases f2 with
    | zero => omega
    | succ m =>
      cases hs : Scan input with
      | none => rw [stripLoop_of_none _ _ _ hs, stripLoop_of_none _ _ _ hs]
      | some tr =>
        obtain ⟨text, rest⟩ := tr
        have hl := Scan_rest_length input text rest hs
        rw [stripLoop_of_some _ _ _ _ _ hs, stripLoop_of_some _ _ _ _ _ hs]
        exact ih m rest _ (by omega) (by omega)

/-- The fuel of `stripTrailingSpace` is enough: any larger amount gives the same
string. -/
theorem stripLoop_fuel (fuel : Nat) (str : Bytes) (h : str.length < fuel) :
    stripLoop fuel str [] = stripTrailingSpace str :=
  stripLoop_fuel_eq fuel (str.length + 1) str [] h (Nat.lt_succ_self _)

theorem dropCR_initial (l : Bytes) : dropCR l <+: l := by
  unfold dropCR
  split
  · exact List.dropLast_prefix l
  · exact List.prefix_refl l

theorem TrimRight_initial (l : Bytes) : TrimRight l cutset <+: l :=
  List.rdropWhile_prefix _ l

theorem takeWhile_no_newline (input : Bytes) :
    ∀ b ∈ input.takeWhile (fun b => b != 10), b ≠ 10 := by
  intro b hb
  have := List.mem_takeWhile_imp hb
  simpa using this

/-- A stripped token does not end with a carriage return. -/
theorem dropCR_TrimRight (l : Bytes) : dropCR (TrimRight l cutset) = TrimRight l cutset := by
  unfold dropCR
  split
  · rename_i h
    exfalso
    have hne : TrimRight l cutset ≠ [] := by
      intro h0
      rw [h0] at h
      simp at h
    have hlast := List.rdropWhile_last_not (fun b => cutset.contains b) l hne
    have hl : (TrimRight l cutset).getLast hne = 13 := by
      have := List.getLast?_eq_getLast _ hne
      rw [this] at h
      exact Option.some.inj h
    apply hlast
    unfold TrimRight at hl
    rw [hl]
    decide
  · rfl

theorem TrimRight_idem (l : Bytes) :
    TrimRight (TrimRight l cutset) cutset = TrimRight l cutset :=
  List.rdropWhile_idempotent _ _

/-- A line without newline, short enough and followed by a newline is the next
token. -/
theorem Scan_line (t rest : Bytes) (hn : ∀ b ∈ t, b ≠ 10) (hl : t.length < maxScanTokenSize) :
    Scan (t ++ 10 :: rest) = some (dropCR t, rest) := by
  have htw : (t ++ 10 :: rest).takeWhile (fun b => b != 10) = t := by
    rw [List.takeWhile_append_of_pos (by
      intro a ha
      simpa using hn a ha)]
    simp
  have hne : t ++ 10 :: rest ≠ [] := by simp
  unfold Scan
  simp only [hne, if_false, htw, Nat.not_le.mpr hl]
  have hd : List.drop (t.length + 1) (t ++ 10 :: rest) = rest := by
    have : t ++ 10 :: rest = (t ++ [10]) ++ rest := by simp
    rw [this]
    have hlen : (t ++ [10]).length = t.length + 1 := by simp
    rw [← hlen, List.drop_left]
  rw [hd]

/-- What one pass has written, a second pass writes again. -/
theorem stripLoop_output_fixed (fuel : Nat) : ∀ (input : Bytes) (g : Nat),
    (stripLoop fuel input []).length < g →
    stripLoop g (stripLoop fuel input []) [] = stripLoop fuel input [] := by
  induction fuel with
  | zero =>
    intro input g _
    exact stripLoop_of_none g [] [] Scan_nil
  | succ n ih =>
    intro input g hg
    cases hs : Scan input with
    | none =>
      rw [stripLoop_of_none _ _ _ hs]
      exact stripLoop_of_none g [] [] Scan_nil
    | some tr =>
      obtain ⟨text, rest⟩ := tr
      have hout : stripLoop (n + 1) input [] =
          TrimRight text cutset ++ 10 :: stripLoop n rest [] := by
        rw [stripLoop_of_some _ _ _ _ _ hs, stripLoop_buf]
        simp
      rw [hout] at hg ⊢
      obtain ⟨_, hlen, htext, _⟩ := Scan_some input text rest hs
      have hsub : ∀ b ∈ TrimRight text cutset, b ≠ 10 := by
        intro b hb
        have h1 : b ∈ text := (TrimRight_initial text).subset hb
        rw [htext] at h1
        exact takeWhile_no_newline input b ((dropCR_initial _).subset h1)
      have hshort : (TrimRight text cutset).length < maxScanTokenSize := by
        have h1 := (TrimRight_initial text).length_le
        have h2 := (dropCR_initial (input.takeWhile (fun b => b != 10))).length_le
        rw [← htext] at h2
        omega
      cases g with
      | zero => omega
      | succ m =>
        rw [stripLoop_of_some _ _ _ _ _ (Scan_line _ _ hsub hshort), stripLoop_buf,
          dropCR_TrimRight, TrimRight_idem, ih rest m (by
            simp only [List.length_append, List.length_cons] at hg
            omega)]
        simp

/-- C25: `stripTrailingSpace` is idempotent: for every string, stripping what
was stripped gives the same string again. -/
theorem stripTrailingSpace_idempotent (s : Bytes) :
    stripTrailingSpace (stripTrailingSpace s) = stripTrailingSpace s := by
  unfold stripTrailingSpace
  exact stripLoop_output_fixed (s.length + 1) s _ (Nat.lt_succ_self _)

/-! ### The lines of a text and the tokens of the scanner -/

theorem linesOf_cons (b : Nat) (bs : Bytes) :
    linesOf (b :: bs) =
      (if b = 10 then [] :: linesOf bs
      else
        match linesOf bs with
        | [] => [[b]]
        | l :: ls => (b :: l) :: ls) := rfl

theorem linesOf_line_cons (t rest : Bytes) (hn : noNewline t) :
    linesOf (t ++ 10 :: rest) = t :: linesOf rest := by
  induction t with
  | nil => simp [linesOf]
  | cons b t ih =>
    have hb : b ≠ 10 := hn b (List.mem_cons_self _ _)
    have ht : noNewline t := fun x hx => hn x (List.mem_cons_of_mem _ hx)
    rw [List.cons_append, linesOf_cons, if_neg hb, ih ht]

theorem linesOf_single (t : Bytes) (h0 : t ≠ []) (hn : noNewline t) : linesOf t = [t] := by
  induction t with
  | nil => exact absurd rfl h0
  | cons b t ih =>
    have hb : b ≠ 10 := hn b (List.mem_cons_self _ _)
    have ht : noNewline t := fun x hx => hn x (List.mem_cons_of_mem _ hx)
    cases t with
    | nil => simp [linesOf, hb]
    | cons b2 t2 =>
      rw [linesOf_cons, if_neg hb, ih (by simp) ht]

/-- A text is empty, or one unterminated line, or a line, a newline and the
rest. -/
theorem line_cases (input : Bytes) :
    input = [] ∨ (input ≠ [] ∧ noNewline input) ∨
    ∃ t rest, input = t ++ 10 :: rest ∧ noNewline t := by
  induction input with
  | nil => exact Or.inl rfl
  | cons b bs ih =>
    right
    by_cases hb : b = 10
    · right
      exact ⟨[], bs, by simp [hb], fun x hx => by simp at hx⟩
    · rcases ih with h | ⟨_, hn⟩ | ⟨t, rest, ht, hn⟩
      · left
        subst h
        exact ⟨by simp, fun x hx => by
          simp only [List.mem_singleton] at hx
          rw [hx]
          exact hb⟩
      · left
        refine ⟨by simp, fun x hx => ?_⟩
        rcases List.mem_cons.mp hx with rfl | hx
        · exact hb
        · exact hn x hx
      · right
        refine ⟨b :: t, rest, by simp [ht], fun x hx => ?_⟩
        rcases List.mem_cons.mp hx with rfl | hx
        · exact hb
        · exact hn x hx

theorem takeWhile_of_noNewline (t : Bytes) (hn : noNewline t) :
    t.takeWhile (fun b => b != 10) = t := by
  rw [List.takeWhile_eq_self_iff]
  intro x hx
  simpa using hn x hx

/-- The last, unterminated line is a token if it is short enough. -/
theorem Scan_last (t : Bytes) (h0 : t ≠ []) (hn : noNewline t)
    (hl : t.length < maxScanTokenSize) : Scan t = some (dropCR t, []) := by
  unfold Scan
  simp only [h0, if_false, takeWhile_of_noNewline t hn, Nat.not_le.mpr hl]
  rw [List.drop_eq_nil_of_le (Nat.le_succ _)]

/-- A line too long for the buffer stops the scanner. -/
theorem Scan_tooLong (input : Bytes)
    (h : maxScanTokenSize ≤ (input.takeWhile (fun b => b != 10)).length) :
    Scan input = none := by
  unfold Scan
  by_cases h0 : input = []
  · simp [h0]
  · simp [h0, h]

theorem takeWhile_line (t rest : Bytes) (hn : noNewline t) :
    (t ++ 10 :: rest).takeWhile (fun b => b != 10) = t := by
  rw [List.takeWhile_append_of_pos (by
    intro a ha
    simpa using hn a ha)]
  simp

theorem rdropWhile_congr_mem (p q : Nat → Bool) (l : Bytes) (h : ∀ b ∈ l, p b = q b) :
    l.rdropWhile p = l.rdropWhile q := by
  induction l using List.reverseRecOn with
  | nil => simp
  | append_singleton l x ih =>
    rw [List.rdropWhile_concat, List.rdropWhile_concat, h x (by simp),
      ih (fun b hb => h b (by simp [hb]))]

theorem TrimRight_dropCR (t : Bytes) : TrimRight (dropCR t) cutset = TrimRight t cutset := by
  unfold dropCR
  split
  · rename_i h
    have ht : t = t.dropLast ++ [13] := (List.dropLast_append_getLast? 13 h).symm
    conv_rhs => rw [ht]
    unfold TrimRight
    rw [List.rdropWhile_concat_pos _ _ _ (by decide)]
  · rfl

/-- On a line, what the loop writes is the line stripped of its trailing
spaces, tabs and carriage returns. -/
theorem TrimRight_dropCR_eq_stripRight (t : Bytes) (hn : noNewline t) :
    TrimRight (dropCR t) cutset = stripRight t := by
  rw [TrimRight_dropCR]
  unfold TrimRight stripRight
  apply rdropWhile_congr_mem
  intro b hb
  have h10 : b ≠ 10 := hn b hb
  simp [cutset, h10]

theorem renderStripped_cons (l : Bytes) (ls : List Bytes) :
    renderStripped (l :: ls) = stripRight l ++ 10 :: renderStripped ls := by
  simp [renderStripped]

/-- Within the scanner's limit the loop writes the lines of its input, each
stripped on the right and followed by one newline. -/
theorem stripLoop_eq_render (fuel : Nat) : ∀ input : Bytes, input.length < fuel →
    (∀ l ∈ linesOf input, l.length < maxScanTokenSize) →
    stripLoop fuel input [] = renderStripped (linesOf input) := by
  induction fuel with
  | zero => intro input h; omega
  | succ n ih =>
    intro input hlen hshort
    rcases line_cases input with h | ⟨h0, hn⟩ | ⟨t, rest, ht, hn⟩
    · subst h
      rw [stripLoop_of_none _ _ _ Scan_nil]
      rfl
    · rw [linesOf_single input h0 hn] at hshort ⊢
      have hl : input.length < maxScanTokenSize := hshort input (by simp)
      rw [stripLoop_of_some _ _ _ _ _ (Scan_last input h0 hn hl),
        stripLoop_of_none _ _ _ Scan_nil, TrimRight_dropCR_eq_stripRight input hn,
        renderStripped_cons]
      simp [renderStripped]
    · subst ht
      rw [linesOf_line_cons t rest hn] at hshort ⊢
      have hl : t.length < maxScanTokenSize := hshort t (by simp)
      have hrest : rest.length < n := by
        simp only [List.length_append, List.length_cons] at hlen
        omega
      rw [stripLoop_of_some _ _ _ _ _ (Scan_line t rest hn hl), stripLoop_buf,
        ih rest hrest (fun l hl2 => hshort l (List.mem_cons_of_mem _ hl2)),
        TrimRight_dropCR_eq_stripRight t hn, renderStripped_cons]
      simp

/-- Within the scanner's limit `stripTrailingSpace` returns the lines of its
input in their order, each without its trailing spaces, tabs and carriage
returns and followed by one newline. -/
theorem stripTrailingSpace_of_short_lines (str : Bytes)
    (h : ∀ l ∈ linesOf str, l.length < maxScanTokenSize) :
    stripTrailingSpace str = renderStripped (linesOf str) :=
  stripLoop_eq_render (str.length + 1) str (Nat.lt_succ_self _) h

theorem longLine_noNewline : noNewline longLine := by
  intro b hb
  rw [List.eq_of_mem_replicate hb]
  decide

theorem longLine_length : longLine.length = maxScanTokenSize := by
  show (List.replicate 65536 97).length = 64 * 1024
  rw [List.length_replicate]

theorem longLine_getLast? : longLine.getLast? = some 97 := by
  unfold longLine
  rw [List.getLast?_replicate]
  rfl

theorem stripRight_of_cleanEnd (l : Bytes) (h : cleanEnd l) : stripRight l = l := by
  unfold stripRight
  rw [List.rdropWhile_eq_self_iff]
  intro hl hp
  obtain ⟨h1, h2, h3⟩ := h
  rw [List.getLast?_eq_getLast l hl] at h1 h2 h3
  simp only [List.contains_cons, List.contains_nil, Bool.or_false, Bool.or_eq_true,
    beq_iff_eq] at hp
  rcases hp with hp | hp | hp
  · exact h1 (by rw [hp])
  · exact h2 (by rw [hp])
  · exact h3 (by rw [hp])

theorem renderStripped_of_clean (ls : List Bytes) (h : ∀ l ∈ ls, cleanEnd l) :
    renderStripped ls = (ls.map (fun l => l ++ [10])).flatten := by
  induction ls with
  | nil => rfl
  | cons l ls ih =>
    rw [renderStripped_cons, stripRight_of_cleanEnd l (h l (by simp)),
      ih (fun x hx => h x (List.mem_cons_of_mem _ hx))]
    simp

/-- Joining the lines of a text, each with a newline, gives the text back if it
is empty or ends with a newline. -/
theorem unlines_linesOf (n : Nat) : ∀ input : Bytes, input.length < n →
    (input = [] ∨ input.getLast? = some 10) →
    ((linesOf input).map (fun l => l ++ [10])).flatten = input := by
  induction n with
  | zero => intro input h; omega
  | succ n ih =>
    intro input hlen hend
    rcases line_cases input with h | ⟨h0, hn⟩ | ⟨t, rest, ht, hn⟩
    · subst h
      rfl
    · rcases hend with h | h
      · exact absurd h h0
      · exact absurd rfl (hn 10 (List.mem_of_getLast?_eq_some h))
    · subst ht
      have hrest : rest.length < n := by
        simp only [List.length_append, List.length_cons] at hlen
        omega
      have hend2 : rest = [] ∨ rest.getLast? = some 10 := by
        by_cases hr : rest = []
        · exact Or.inl hr
        · right
          rcases hend with h | h
          · simp at h
          · have e : t ++ 10 :: rest = (t ++ [10]) ++ rest := by simp
            rw [e, List.getLast?_append_of_ne_nil _ hr] at h
            exact h
      rw [linesOf_line_cons t rest hn, List.map_cons, List.flatten_cons, ih rest hrest hend2]
      simp

/-- C26, amended: every string that is empty or ends with a newline, none of
whose lines ends with a space, a tab or a carriage return and all of whose lines
are shorter than 65536 bytes, the scanner's limit, is returned unchanged by
`stripTrailingSpace`. -/
theorem stripTrailingSpace_fixed_within_limit (str : Bytes)
    (hend : str = [] ∨ str.getLast? = some 10)
    (hclean : ∀ l ∈ linesOf str, cleanEnd l)
    (hshort : ∀ l ∈ linesOf str, l.length < maxScanTokenSize) :
    stripTrailingSpace str = str := by
  rw [stripTrailingSpace_of_short_lines str hshort, renderStripped_of_clean _ hclean]
  exact unlines_linesOf (str.length + 1) str (Nat.lt_succ_self _) hend

/-- C24, as stated, fails: the text has the three lines "first", a line of
65536 letters and "last", and `stripTrailingSpace` returns "first" and a newline
only; the scanner stops at the line that does not fit its buffer, and the
second and the third line are dropped. -/
theorem stripTrailingSpace_drops_long_line :
    linesOf longSecondLine = [ascii "first", longLine, ascii "last"] ∧
    longLine.length = 65536 ∧
    stripTrailingSpace longSecondLine = ascii "first\n" := by
  have hfirst : noNewline (ascii "first") := by
    unfold noNewline
    decide
  refine ⟨?_, longLine_length, ?_⟩
  · unfold longSecondLine
    rw [linesOf_line_cons _ _ hfirst, linesOf_line_cons _ _ longLine_noNewline]
    rfl
  · have hstop : Scan (longLine ++ 10 :: ascii "last\n") = none :=
      Scan_tooLong _ (by rw [takeWhile_line _ _ longLine_noNewline, longLine_length])
    show stripLoop (longSecondLine.length + 1)
      (ascii "first" ++ 10 :: (longLine ++ 10 :: ascii "last\n")) [] = _
    rw [stripLoop_of_some _ _ _ _ _ (Scan_line _ _ hfirst (by decide)),
      stripLoop_of_none _ _ _ hstop]
    rfl

/-- C26, as stated, fails: the text ends with a newline and its one line, 65536
letters, does not end with a space, a tab or a carriage return, yet
`stripTrailingSpace` returns the empty string and not the text: the line does
not fit the scanner's buffer. -/
theorem stripTrailingSpace_long_line_not_fixed :
    longLineText.getLast? = some 10 ∧
    linesOf longLineText = [longLine] ∧
    cleanEnd longLine ∧
    stripTrailingSpace longLineText = [] ∧
    stripTrailingSpace longLineText ≠ longLineText := by
  have hout : stripTrailingSpace longLineText = [] := by
    have hstop : Scan (longLine ++ 10 :: []) = none :=
      Scan_tooLong _ (by rw [takeWhile_line _ _ longLine_noNewline, longLine_length])
    show stripLoop (longLineText.length + 1) (longLine ++ 10 :: []) [] = _
    rw [stripLoop_of_none _ _ _ hstop]
  refine ⟨?_, ?_, ?_, hout, ?_⟩
  · exact List.getLast?_concat longLine
  · show linesOf (longLine ++ 10 :: []) = _
    rw [linesOf_line_cons _ _ longLine_noNewline]
    rfl
  · unfold cleanEnd
    rw [longLine_getLast?]
    decide
  · rw [hout]
    intro h
    have : longLineText.getLast? = some 10 := List.getLast?_concat longLine
    rw [← h] at this
    cases this

theorem stripTrailingSpace_fixed_within_limit_witness :
    (tidyText = [] ∨ tidyText.getLast? = some 10) ∧
    (∀ l ∈ linesOf tidyText, cleanEnd l) ∧
    (∀ l ∈ linesOf tidyText, l.length < maxScanTokenSize) ∧
    stripTrailingSpace tidyText = tidyText :=
  ⟨Or.inr (by decide), by unfold cleanEnd; decide, by decide,
   stripTrailingSpace_fixed_within_limit tidyText (Or.inr (by decide))
     (by unfold cleanEnd; decide) (by decide)⟩

/-- What `rdropWhile` removes is a tail of bytes that satisfy the test. -/
theorem rdropWhile_tail (p : Nat → Bool) (l : Bytes) :
    ∃ tail, l = l.rdropWhile p ++ tail ∧ ∀ b ∈ tail, p b = true := by
  induction l using List.reverseRecOn with
  | nil => exact ⟨[], by simp, by simp⟩
  | append_singleton l x ih =>
    obtain ⟨tail, ht, hp⟩ := ih
    by_cases hx : p x = true
    · refine ⟨tail ++ [x], ?_, ?_⟩
      · rw [List.rdropWhile_concat_pos _ _ _ hx, ← List.append_assoc, ← ht]
      · intro b hb
        rcases List.mem_append.mp hb with h | h
        · exact hp b h
        · rw [List.mem_singleton.mp h]
          exact hx
    · exact ⟨[], by rw [List.rdropWhile_concat_neg _ _ _ hx]; simp, by simp⟩

theorem cleanEnd_stripRight (l : Bytes) : cleanEnd (stripRight l) := by
  by_cases h0 : stripRight l = []
  · rw [h0]
    unfold cleanEnd
    decide
  · have hlast := List.rdropWhile_last_not (fun b => [32, 9, 13].contains b) l h0
    have hg : (stripRight l).getLast? = some ((stripRight l).getLast h0) :=
      List.getLast?_eq_getLast _ h0
    unfold cleanEnd
    rw [hg]
    refine ⟨?_, ?_, ?_⟩ <;> intro h <;> apply hlast <;>
      rw [show List.getLast (List.rdropWhile (fun b => [32, 9, 13].contains b) l) h0
        = (stripRight l).getLast h0 from rfl, Option.some.inj h] <;> decide

theorem stripRight_noNewline (l : Bytes) (h : noNewline l) : noNewline (stripRight l) :=
  fun b hb => h b ((List.rdropWhile_prefix _ l).subset hb)

/-- No line of a text holds a newline. -/
theorem linesOf_noNewline (n : Nat) : ∀ input : Bytes, input.length < n →
    ∀ l ∈ linesOf input, noNewline l := by
  induction n with
  | zero => intro input h; omega
  | succ n ih =>
    intro input hlen l hl
    rcases line_cases input with h | ⟨h0, hn⟩ | ⟨t, rest, ht, hn⟩
    · subst h
      simp [linesOf] at hl
    · rw [linesOf_single input h0 hn] at hl
      rw [List.mem_singleton.mp hl]
      exact hn
    · subst ht
      rw [linesOf_line_cons t rest hn] at hl
      rcases List.mem_cons.mp hl with h | h
      · rw [h]
        exact hn
      · have hrest : rest.length < n := by
          simp only [List.length_append, List.length_cons] at hlen
          omega
        exact ih rest hrest l h

/-- The lines of newline-free lines joined, each with a newline, are those
lines. -/
theorem linesOf_unlines (ms : List Bytes) (h : ∀ m ∈ ms, noNewline m) :
    linesOf ((ms.map (fun l => l ++ [10])).flatten) = ms := by
  induction ms with
  | nil => rfl
  | cons m ms ih =>
    have e : ((m :: ms).map (fun l => l ++ [10])).flatten
        = m ++ 10 :: (ms.map (fun l => l ++ [10])).flatten := by simp
    rw [e, linesOf_line_cons _ _ (h m (by simp)), ih (fun x hx => h x (List.mem_cons_of_mem _ hx))]

theorem renderStripped_eq_unlines (ls : List Bytes) :
    renderStripped ls = ((ls.map stripRight).map (fun l => l ++ [10])).flatten := by
  unfold renderStripped
  rw [List.map_map]
  rfl

/-- C24, amended: for every input string whose lines are all shorter than 65536
bytes, the scanner's limit, `stripTrailingSpace` returns the lines of the input
in their original order, each without its trailing spaces, tabs and carriage
returns and followed by a single newline; the lines of the result are the
stripped lines of the input, none dropped and none added, and each stripped
line is the line itself up to a removed tail of spaces, tabs and carriage
returns. -/
theorem stripTrailingSpace_lines_within_limit (str : Bytes)
    (h : ∀ l ∈ linesOf str, l.length < maxScanTokenSize) :
    stripTrailingSpace str = renderStripped (linesOf str) ∧
    linesOf (stripTrailingSpace str) = (linesOf str).map stripRight ∧
    (∀ l ∈ linesOf str, ∃ tail, l = stripRight l ++ tail ∧
      (∀ b ∈ tail, b = 32 ∨ b = 9 ∨ b = 13) ∧ cleanEnd (stripRight l)) := by
  have h1 := stripTrailingSpace_of_short_lines str h
  refine ⟨h1, ?_, ?_⟩
  · rw [h1, renderStripped_eq_unlines]
    apply linesOf_unlines
    intro m hm
    obtain ⟨l, hl, rfl⟩ := List.mem_map.mp hm
    exact stripRight_noNewline l (linesOf_noNewline (str.length + 1) str (Nat.lt_succ_self _) l hl)
  · intro l _
    obtain ⟨tail, ht, hp⟩ := rdropWhile_tail (fun b => [32, 9, 13].contains b) l
    refine ⟨tail, ht, ?_, cleanEnd_stripRight l⟩
    intro b hb
    have := hp b hb
    simpa using this

theorem stripTrailingSpace_lines_within_limit_witness :
    (∀ l ∈ linesOf untidyText, l.length < maxScanTokenSize) ∧
    stripTrailingSpace untidyText = renderStripped (linesOf untidyText) ∧
    renderStripped (linesOf untidyText) = ascii "USAGE\n  fastly [<flags>]\n\nA tool\n" :=
  ⟨by decide, (stripTrailingSpace_lines_within_limit untidyText (by decide)).1, by decide⟩

end Publish
